import Mathlib

/-!
Verification of the message-sanitization pipeline and request dispatch of
`proxy.py` (Vertex AI proxy).  Python dictionaries are modelled as
association lists over `String` keys, Python values as the inductive type
`PyVal`, and code that can raise an exception returns `Except String`.
-/

set_option maxHeartbeats 1000000

/-- A Python (JSON-like) value: the shapes that can occur in a parsed
request body. -/
inductive PyVal where
  | vstr (s : String)
  | vint (n : Int)
  | vbool (b : Bool)
  | vnone
  | vlist (xs : List PyVal)
  | vdict (d : List (String × PyVal))

/-- A Python dict with string keys (`Dict[str, Any]`), as an association
list in insertion order.  Real Python dicts have unique keys; the
operations below agree with Python semantics on unique-key lists. -/
abbrev PyDict := List (String × PyVal)

/-- `d[k]` / `d.get(k)`: value of the first binding of `k`. -/
def dictGet : PyDict → String → Option PyVal
  | [], _ => none
  | (k', v) :: rest, k => if k' = k then some v else dictGet rest k

/-- `k in d`: key membership. -/
def hasKeyD : PyDict → String → Bool
  | [], _ => false
  | (k', _) :: rest, k => decide (k' = k) || hasKeyD rest k

/-- `d[k] = v`: update the first binding in place, or append a new one
(Python inserts new keys at the end). -/
def dictSet : PyDict → String → PyVal → PyDict
  | [], k, v => [(k, v)]
  | (k', v') :: rest, k, v =>
      if k' = k then (k, v) :: rest else (k', v') :: dictSet rest k v

/-- `del d[k]` / `d.pop(k, None)`: remove the binding of `k` (unique in a
real Python dict). -/
def dictDel (d : PyDict) (k : String) : PyDict :=
  d.filter (fun p => decide (p.1 ≠ k))

theorem dictGet_dictSet_self (d : PyDict) (k : String) (v : PyVal) :
    dictGet (dictSet d k v) k = some v := by
  induction d with
  | nil => simp [dictSet, dictGet]
  | cons p rest ih =>
      obtain ⟨k', v'⟩ := p
      by_cases h : k' = k
      · simp [dictSet, dictGet, h]
      · simp [dictSet, dictGet, h, ih]

theorem dictGet_dictSet_ne (d : PyDict) (k k' : String) (v : PyVal)
    (h : k' ≠ k) : dictGet (dictSet d k v) k' = dictGet d k' := by
  induction d with
  | nil => simp [dictSet, dictGet, Ne.symm h]
  | cons p rest ih =>
      obtain ⟨k₀, v₀⟩ := p
      by_cases h₀ : k₀ = k
      · subst h₀
        simp [dictSet, dictGet, Ne.symm h]
      · by_cases h₁ : k₀ = k'
        · subst h₁
          simp [dictSet, dictGet, h₀, h]
        · simp [dictSet, dictGet, h₀, h₁, ih]

theorem dictGet_dictDel_self (d : PyDict) (k : String) :
    dictGet (dictDel d k) k = none := by
  induction d with
  | nil => simp [dictDel, dictGet]
  | cons p rest ih =>
      obtain ⟨k₀, v₀⟩ := p
      by_cases h : k₀ = k
      · simpa [dictDel, h] using ih
      · simpa [dictDel, dictGet, h] using ih

theorem dictGet_dictDel_ne (d : PyDict) (k k' : String) (h : k' ≠ k) :
    dictGet (dictDel d k) k' = dictGet d k' := by
  induction d with
  | nil => simp [dictDel, dictGet]
  | cons p rest ih =>
      obtain ⟨k₀, v₀⟩ := p
      by_cases h₀ : k₀ = k
      · subst h₀
        simpa [dictDel, dictGet, Ne.symm h] using ih
      · by_cases h₁ : k₀ = k'
        · subst h₁
          simp [dictDel, dictGet, h₀]
        · simpa [dictDel, dictGet, h₀, h₁] using ih

theorem hasKeyD_eq_false_iff (d : PyDict) (k : String) :
    hasKeyD d k = false ↔ dictGet d k = none := by
  induction d with
  | nil => simp [hasKeyD, dictGet]
  | cons p rest ih =>
      obtain ⟨k₀, v₀⟩ := p
      by_cases h : k₀ = k
      · simp [hasKeyD, dictGet, h]
      · simp [hasKeyD, dictGet, h, ih]

/-- Python `repr(v)`.  Containers render their elements with `repr`,
matching CPython.  The quote-selection and character-escaping rules of
`repr` on strings are not reproduced (no claim depends on them); a string
is rendered between plain single quotes. -/
def pyReprOf : PyVal → String
  | .vstr s => "\x27" ++ s ++ "\x27"
  | .vint n => toString n
  | .vbool b => if b then "True" else "False"
  | .vnone => "None"
  | .vlist xs =>
      "[" ++ String.intercalate ", " (xs.attach.map (fun p => pyReprOf p.1)) ++ "]"
  | .vdict d =>
      "\x7b" ++
        String.intercalate ", "
          (d.attach.map (fun p => "\x27" ++ p.1.1 ++ "\x27: " ++ pyReprOf p.1.2)) ++
        "\x7d"
decreasing_by
  · have := List.sizeOf_lt_of_mem p.2
    simp only [PyVal.vlist.sizeOf_spec]
    omega
  · have h1 := List.sizeOf_lt_of_mem p.2
    have h2 : sizeOf p.1.2 < sizeOf p.1 := by
      obtain ⟨⟨a, b⟩, hp⟩ := p
      simp
    simp only [PyVal.vdict.sizeOf_spec]
    omega

/-- Python `str(v)`: identity on strings, `repr` on everything else. -/
def pyStrOf : PyVal → String
  | .vstr s => s
  | v => pyReprOf v

/-- Python truthiness of a value (`bool(v)`). -/
def pyTruthy : PyVal → Bool
  | .vstr s => !s.data.isEmpty
  | .vint n => decide (n ≠ 0)
  | .vbool b => b
  | .vnone => false
  | .vlist xs => !xs.isEmpty
  | .vdict d => !d.isEmpty

/-- `v == "name"` for a Python value read with `.get("role")` (absent key
gives `None`): true only for the equal string. -/
def isRole (r : Option PyVal) (name : String) : Bool :=
  match r with
  | some (.vstr s) => decide (s = name)
  | _ => false

/-- Substring test (`pat in s`, or an alternation-free literal in
`re.search`). -/
def strContains (s pat : String) : Bool := decide (pat.data <:+: s.data)

/-- Python `s.endswith(sep)`. -/
def pyEndsWith (s sep : String) : Bool := decide (sep.data <:+ s.data)

/-- `s[:n]`, `0 ≤ n`. -/
def strTake (s : String) (n : Nat) : String := String.mk (s.data.take n)

/-- `s[-n:]` for `0 < n ≤ len(s)`: the last `n` characters. -/
def strTakeRight (s : String) (n : Nat) : String :=
  String.mk (s.data.drop (s.data.length - n))

/-- `s[:len(s)-n]`: the string with its last `n` characters removed. -/
def strDropRight (s : String) (n : Nat) : String :=
  String.mk (s.data.take (s.data.length - n))

/-- Python `str.strip()` whitespace (the ASCII whitespace characters;
`strip` also removes some rarer Unicode spaces, which no token string
contains). -/
def isPySpace (c : Char) : Bool :=
  c = ' ' || c = '\t' || c = '\n' || c = '\x0d' || c = '\x0b' || c = '\x0c'

/-- Python `s.strip()`. -/
def pyStrip (s : String) : String :=
  String.mk (((s.data.dropWhile isPySpace).reverse.dropWhile isPySpace).reverse)

theorem isRole_iff (r : Option PyVal) (name : String) :
    isRole r name = true ↔ r = some (.vstr name) := by
  cases r with
  | none => simp [isRole]
  | some v => cases v <;> simp [isRole]

theorem pyTruthy_vstr_iff (s : String) :
    pyTruthy (.vstr s) = true ↔ s ≠ "" := by
  cases s with
  | mk l =>
      cases l <;>
        simp [pyTruthy, List.isEmpty, String.ext_iff]

/-! ## The sanitizer (`role_flip_sanitize`, proxy.py lines 56-141) -/

/-- The maximum tool-log length (proxy.py line 49). -/
def MAX_LOG_LENGTH : Nat := 30000

/-- The effort-suffix table (proxy.py lines 51-53), in insertion order. -/
def REASONING_LEVELS : List (String × String) :=
  [("none", "minimal"), ("low", "low"), ("medium", "medium"), ("high", "high")]

/-- The system directive prepended to every sanitized message list
(proxy.py lines 62-72), with the exact content of the triple-quoted
Python string. -/
def systemInstruction : PyVal :=
  .vdict [("role", .vstr "system"),
    ("content", .vstr ("[SYSTEM INSTRUCTION:\n1. You are an autonomous Agent.\n2. The \x27[System Log]\x27 in history represents the OUTPUT of tools you just ran.\n3. **DO NOT repeat the raw logs.** The user cannot read them.\n4. **MANDATORY:** After reading the logs, you **MUST** reply to the user immediately.\n   - If success: Say \"Done\" or briefly describe what changed (e.g., \"Code committed and pushed.\").\n   - If error: Briefly explain the error.\n5. **NEVER stay silent** after a tool execution.]"))]

/-- One item of a structured-content list (proxy.py lines 83-85): a dict
with a `text` key contributes `str(item["text"])`, a bare string
contributes itself, anything else is discarded. -/
def itemText : PyVal → Option String
  | .vdict idd =>
      match dictGet idd "text" with
      | some v => some (pyStrOf v)
      | none => none
  | .vstr s => some s
  | _ => none

/-- Content flattening (proxy.py lines 80-89): a structured-block list is
joined with newlines; a non-string result is stringified with
`str(content or "")`. -/
def flattenContent (d : PyDict) : PyDict :=
  match dictGet d "content" with
  | some (.vlist items) =>
      dictSet d "content" (.vstr (String.intercalate "\n" (items.filterMap itemText)))
  | some (.vstr _) => d
  | c =>
      dictSet d "content" (.vstr (pyStrOf
        (match c with
         | some v => if pyTruthy v then v else .vstr ""
         | none => .vstr "")))

/-- `content_str = new_msg["content"]` (proxy.py line 91); after
flattening, `content` always holds a string, so the default arm is dead
code. -/
def strOfContent (d : PyDict) : String :=
  match dictGet d "content" with
  | some (.vstr s) => s
  | _ => ""

/-- One iteration of the `tool_calls` loop (proxy.py lines 102-104):
`tc.get("function", {}).get("name", "tool")` raises `AttributeError`
when `tc`, or a present `function` value, is not a dict. -/
def toolCallLine (tc : PyVal) : Except String String :=
  match tc with
  | .vdict td =>
      match (dictGet td "function").getD (.vdict []) with
      | .vdict fd =>
          Except.ok ("\n[Log: Tool \x27" ++
            pyStrOf ((dictGet fd "name").getD (.vstr "tool")) ++ "\x27 called]")
      | _ => Except.error "AttributeError"
  | _ => Except.error "AttributeError"

/-- Iterating `new_msg["tool_calls"]` (proxy.py lines 102-104).  Python
iterates any iterable: a non-empty string yields length-1 strings and a
non-empty dict yields its keys, both of which lack `.get` and raise
`AttributeError` on the first element; empty iterables produce no log
lines; non-iterables raise `TypeError`. -/
def toolCallLines : List PyVal → Except String String
  | [] => Except.ok ""
  | tc :: rest =>
      match toolCallLine tc with
      | Except.error e => Except.error e
      | Except.ok line =>
          match toolCallLines rest with
          | Except.error e => Except.error e
          | Except.ok restLines => Except.ok (line ++ restLines)

def toolCallLog : PyVal → Except String String
  | .vlist tcs => toolCallLines tcs
  | .vstr "" => Except.ok ""
  | .vdict [] => Except.ok ""
  | .vstr _ => Except.error "AttributeError"
  | .vdict _ => Except.error "AttributeError"
  | _ => Except.error "TypeError"

/-- The marker test of proxy.py line 114:
`re.search(r"\[Past Action|\[System Log|\[Log:|\[Internal Context", s)`,
an alternation of four literal substrings. -/
def containsMarker (s : String) : Bool :=
  strContains s "[Past Action" || strContains s "[System Log" ||
    strContains s "[Log:" || strContains s "[Internal Context"

/-- The assistant/model branch (proxy.py lines 97-119), applied when the
original role is `assistant` or `model`: collect log lines from
`tool_calls`/`function_call`, delete those keys, and flip the message to
role `user` with wrapped content when any log source or a marker
substring was found. -/
def assistantStep (d : PyDict) (cs : String) : Except String PyDict :=
  match
    (match dictGet d "tool_calls" with
     | none => Except.ok (d, "", false)
     | some v =>
         match toolCallLog v with
         | Except.ok log => Except.ok (dictDel d "tool_calls", log, true)
         | Except.error e => Except.error e) with
  | Except.error e => Except.error e
  | Except.ok (d1, log1, flip1) =>
      match
        (match dictGet d1 "function_call" with
         | none => Except.ok (d1, log1, flip1)
         | some (.vdict fc) =>
             Except.ok (dictDel d1 "function_call",
               log1 ++ "\n[Log: Function \x27" ++
                 pyStrOf ((dictGet fc "name").getD .vnone) ++ "\x27 called]",
               true)
         | some _ => Except.error "AttributeError") with
      | Except.error e => Except.error e
      | Except.ok (d2, logSuffix, flip2) =>
          if flip2 || containsMarker cs then
            Except.ok (dictSet (dictSet d2 "role" (.vstr "user")) "content"
              (.vstr ("[Internal Context: Assistant\x27s previous action]\n" ++
                cs ++ "\n" ++ logSuffix)))
          else Except.ok d2

/-- Log truncation (proxy.py lines 125-129).  `content_str[:MAX_LOG_LENGTH // 2]`
keeps the first 15000 characters and `content_str[-MAX_LOG_LENGTH // 2:]`
(Python parses this as `(-30000) // 2 = -15000`) keeps the last 15000. -/
def truncateLog (s : String) : String :=
  if s.data.length > MAX_LOG_LENGTH then
    strTake s (MAX_LOG_LENGTH / 2) ++
      "\n\n[...System: Output Truncated (" ++
      toString (s.data.length - MAX_LOG_LENGTH) ++ " chars removed)...]\n\n" ++
      strTakeRight s (MAX_LOG_LENGTH / 2)
  else s

/-- The read-only wrapper applied to tool-result content (proxy.py line
133). -/
def wrapReadOnly (s : String) : String :=
  "[Internal Execution Result - READ ONLY]\n" ++ s ++
    "\n\n[SYSTEM: Action finished. Please report status to user now.]"

/-- The tool/function branch (proxy.py lines 122-135), applied when the
original role is `tool` or `function`. -/
def toolStep (d : PyDict) (cs : String) : PyDict :=
  dictDel
    (dictDel
      (dictSet (dictSet d "role" (.vstr "user")) "content"
        (.vstr (wrapReadOnly (truncateLog cs))))
      "tool_call_id")
    "name"

/-- The final placeholder substitution (proxy.py line 137):
`if not new_msg.get("content"): new_msg["content"] = "."`. -/
def fallbackStep (d : PyDict) : PyDict :=
  match dictGet d "content" with
  | some v => if pyTruthy v then d else dictSet d "content" (.vstr ".")
  | none => dictSet d "content" (.vstr ".")

/-- Processing of one message of `body["messages"]` (proxy.py lines
75-138).  A non-dict element raises before contributing any output: a
string or a list copy succeeds but the following `.get` raises
`AttributeError`, and other values have no `.copy`. -/
def processMsg (msg : PyVal) : Except String PyVal :=
  match msg with
  | .vdict d0 =>
      let r := dictGet d0 "role"
      let d1 := flattenContent d0
      let cs := strOfContent d1
      let d2 := if isRole r "developer" then dictSet d1 "role" (.vstr "system") else d1
      match (if isRole r "assistant" || isRole r "model"
             then assistantStep d2 cs else Except.ok d2) with
      | Except.error e => Except.error e
      | Except.ok d3 =>
          Except.ok (.vdict (fallbackStep
            (if isRole r "tool" || isRole r "function" then toolStep d3 cs else d3)))
  | _ => Except.error "AttributeError"

/-- The `for msg in body["messages"]` loop (proxy.py lines 75-138):
messages are processed in order and the first exception aborts the
request. -/
def processAll : List PyVal → Except String (List PyVal)
  | [] => Except.ok []
  | m :: rest =>
      match processMsg m with
      | Except.error e => Except.error e
      | Except.ok m' =>
          match processAll rest with
          | Except.error e => Except.error e
          | Except.ok rest' => Except.ok (m' :: rest')

/-- `role_flip_sanitize` (proxy.py lines 56-141): returns the body
unchanged when it has no `messages` key; otherwise prepends the system
directive and processes every message.  A `messages` value that is an
empty string or empty dict iterates zero times; other non-list values
raise on iteration (`AttributeError` at `msg.copy()` for string/dict
elements, `TypeError` for non-iterables). -/
def role_flip_sanitize (body : PyDict) : Except String PyDict :=
  match dictGet body "messages" with
  | none => Except.ok body
  | some (.vlist msgs) =>
      match processAll msgs with
      | Except.ok cleaned =>
          Except.ok (dictSet body "messages" (.vlist (systemInstruction :: cleaned)))
      | Except.error e => Except.error e
  | some (.vstr "") =>
      Except.ok (dictSet body "messages" (.vlist [systemInstruction]))
  | some (.vdict []) =>
      Except.ok (dictSet body "messages" (.vlist [systemInstruction]))
  | some (.vstr _) => Except.error "AttributeError"
  | some (.vdict _) => Except.error "AttributeError"
  | some _ => Except.error "TypeError"

/-! ## Token provider, model router and endpoint (proxy.py lines 144-162) -/

/-- `get_vertex_token` (proxy.py lines 144-151).  The environment is
modelled by `envToken` (the value of `VERTEX_ACCESS_TOKEN`, `none` when
unset) and `gcloud` (the outcome of the subprocess: stdout on success,
failure when the command is missing or exits non-zero).  The Python
`if os.getenv(...)` tests truthiness, so an empty-string value falls
through to `gcloud`; every failure is caught and becomes `""`. -/
def get_vertex_token (envToken : Option String) (gcloud : Except Unit String) : String :=
  if pyTruthy (match envToken with | some t => .vstr t | none => .vnone) then
    match envToken with
    | some t => t
    | none => ""
  else
    match gcloud with
    | Except.ok out => pyStrip out
    | Except.error _ => ""

/-- Position of the last occurrence of `pat` in `hay` at index `≤ i`
(the search of Python `rsplit(pat, 1)`). -/
def lastMatchFrom (hay pat : List Char) : Nat → Option Nat
  | 0 => if decide (pat <+: hay) then some 0 else none
  | j + 1 =>
      if decide (pat <+: hay.drop (j + 1)) then some (j + 1)
      else lastMatchFrom hay pat j

/-- `s.rsplit(sep, 1)[0]`: the part of `s` before the last occurrence of
`sep`, or all of `s` when `sep` does not occur. -/
def rsplit1Head (s sep : String) : String :=
  match lastMatchFrom s.data sep.data s.data.length with
  | some i => String.mk (s.data.take i)
  | none => s

/-- The suffix loop of `parse_model_id` (proxy.py lines 154-156), tried
in the insertion order of `REASONING_LEVELS`. -/
def parseModelGo (model_id : String) : List (String × String) → String × Option String
  | [] => (model_id, none)
  | (sfx, effort) :: rest =>
      if pyEndsWith model_id ("-" ++ sfx) then
        (rsplit1Head model_id ("-" ++ sfx), some effort)
      else parseModelGo model_id rest

/-- `parse_model_id` (proxy.py lines 153-157). -/
def parse_model_id (model_id : String) : String × Option String :=
  parseModelGo model_id REASONING_LEVELS

/-- `get_endpoint_url` (proxy.py lines 159-162), with the configured
project and region as parameters. -/
def get_endpoint_url (project region base_model : String) : String :=
  if strContains base_model "gemini-3-" then
    "https://aiplatform.googleapis.com/v1/projects/" ++ project ++
      "/locations/global/endpoints/openapi"
  else
    "https://" ++ region ++ "-aiplatform.googleapis.com/v1/projects/" ++ project ++
      "/locations/" ++ region ++ "/endpoints/openapi"

/-! ## The request handler (`chat_completions`, proxy.py lines 165-238) -/

/-- The outbound request built by `chat_completions` (proxy.py lines
176-192) before it is sent. -/
structure OutboundRequest where
  url : String
  authorization : String
  contentType : String
  jsonBody : PyDict

/-- The backend's reply: HTTP status and the byte stream as a chunk
list (`response.aiter_bytes()`); `aread()` is the concatenation. -/
structure BackendResp where
  status : Nat
  chunks : List String

/-- `await response.aread()`: the full body. -/
def backendFullBody (r : BackendResp) : String := String.join r.chunks

/-- The request preparation phase of `chat_completions` (proxy.py lines
171-192): sanitize, default `tool_choice`, split the model id, rewrite
the body, pick the endpoint and fetch the token.  Any exception becomes
`HTTPException(500)` in the handler, modelled by the `Except.error`
channel.  `body.get("model", "")` may produce a non-string, on which
`.endswith` raises `AttributeError`. -/
def prepareRequest (raw_body : PyDict) (envToken : Option String)
    (gcloud : Except Unit String) (project region : String) :
    Except String OutboundRequest :=
  match role_flip_sanitize raw_body with
  | Except.error e => Except.error e
  | Except.ok body =>
      let body :=
        if hasKeyD body "tools" && !hasKeyD body "tool_choice" then
          dictSet body "tool_choice" (.vstr "auto")
        else body
      match (dictGet body "model").getD (.vstr "") with
      | .vstr model_id =>
          let base_model := (parse_model_id model_id).1
          let vertex_body := dictDel (dictSet body "model" (.vstr base_model)) "reasoning_effort"
          Except.ok
            { url := get_endpoint_url project region base_model ++ "/chat/completions"
              authorization := "Bearer " ++ get_vertex_token envToken gcloud
              contentType := "application/json"
              jsonBody := vertex_body }
      | _ => Except.error "AttributeError"

/-- The handler's outcome as seen by the caller: a 500 from the
surrounding `try/except`, a verbatim non-streamed error reply, or a
committed event stream. -/
inductive DispatchOutcome where
  | internalError (detail : String)
  | errorResponse (status : Nat) (body : String)
  | streamed (status : Nat) (mediaType : String)

/-- `chat_completions` (proxy.py lines 165-238) up to the choice of
response: an exception during preparation yields `HTTPException(500)`;
a backend status `≥ 400` yields a non-streamed `Response` with the
backend's status and fully-read body (lines 197-200); otherwise a
`StreamingResponse` with the backend's status and media type
`text/event-stream` (line 232). -/
def chat_completions (raw_body : PyDict) (envToken : Option String)
    (gcloud : Except Unit String) (project region : String)
    (resp : BackendResp) : DispatchOutcome :=
  match prepareRequest raw_body envToken gcloud project region with
  | Except.error e => DispatchOutcome.internalError e
  | Except.ok _ =>
      if resp.status ≥ 400 then
        DispatchOutcome.errorResponse resp.status (backendFullBody resp)
      else DispatchOutcome.streamed resp.status "text/event-stream"

/-! ## The relay loop (`monitored_stream_generator`, proxy.py lines 203-232)

The generator's control flow is a `try`/`except`/`finally` around
`async for chunk in response.aiter_bytes(): yield chunk`.  Its observable
connection events are modelled as a trace.  The runtime semantics encoded
here, which the source relies on:
* the `finally:` block (line 227, containing the single
  `await response.aclose()`) runs exactly once, whether the loop is
  exhausted, an exception is raised by `aiter_bytes`, or the caller's
  disconnect cancels the generator at a `yield`;
* on cancellation at a `yield`, no further chunks are pulled from the
  backend iterator;
* on the `status >= 400` path (lines 197-200) `await response.aread()`
  consumes the stream to completion, which returns the pooled connection
  (there is no explicit `aclose()` on that path). -/

/-- An observable connection event of a dispatch. -/
inductive StreamEvent (χ : Type) where
  | yielded (c : χ)
  | connClosed

/-- How the relay loop ends. -/
inductive StreamTermination where
  | completed
  | closedByClient
  | failed

/-- The body of the relay loop: `chunks` are the backend's remaining
chunks, `failAfter = some k` makes the backend iterator raise after `k`
chunks, `pulls = some k` makes the caller disconnect after consuming `k`
chunks (`none` = no failure / consumes everything).  Returns the chunks
actually yielded and the way the loop ended. -/
def streamLoop {χ : Type} : List χ → Option Nat → Option Nat → List χ × StreamTermination
  | _, _, some 0 => ([], StreamTermination.closedByClient)
  | _, some 0, _ => ([], StreamTermination.failed)
  | [], _, _ => ([], StreamTermination.completed)
  | c :: rest, failAfter, pulls =>
      let r := streamLoop rest (failAfter.map (fun n => n - 1)) (pulls.map (fun n => n - 1))
      (c :: r.1, r.2)

/-- The full event trace of `monitored_stream_generator`: the yields of
the loop followed by the one `aclose` of the `finally:` block. -/
def monitoredStreamEvents {χ : Type} (chunks : List χ) (failAfter pulls : Option Nat) :
    List (StreamEvent χ) :=
  ((streamLoop chunks failAfter pulls).1.map StreamEvent.yielded) ++
    [StreamEvent.connClosed]

/-- Number of connection-release events in a trace. -/
def closeCount {χ : Type} (evs : List (StreamEvent χ)) : Nat :=
  evs.countP (fun e => match e with | StreamEvent.connClosed => true | _ => false)

/-- The chunks a trace delivered to the caller. -/
def yieldedChunks {χ : Type} (evs : List (StreamEvent χ)) : List χ :=
  evs.filterMap (fun e => match e with | StreamEvent.yielded c => some c | _ => none)

/-- The connection events of a whole dispatch (proxy.py lines 197-232):
on a `≥ 400` status the body is read to completion and the connection
returns to the pool; otherwise the monitored generator runs. -/
def dispatchEvents {χ : Type} (status : Nat) (chunks : List χ)
    (failAfter pulls : Option Nat) : List (StreamEvent χ) :=
  if status ≥ 400 then [StreamEvent.connClosed]
  else monitoredStreamEvents chunks failAfter pulls

/-! ## Accessors used by the claim statements -/

/-- `Except.isOk`. -/
def isOkE {ε α : Type} : Except ε α → Bool
  | Except.ok _ => true
  | Except.error _ => false

/-- The sanitized message list of a body, when present. -/
def messagesOf (d : PyDict) : Option (List PyVal) :=
  match dictGet d "messages" with
  | some (.vlist l) => some l
  | _ => none

/-- Message `i` of a sanitizer result. -/
def msgAt (r : Except String PyDict) (i : Nat) : Option PyVal :=
  match r with
  | Except.ok d => (messagesOf d).bind (fun l => l.get? i)
  | Except.error _ => none

/-- The `content` string of a message value. -/
def msgContent (m : Option PyVal) : Option String :=
  match m with
  | some (.vdict d) =>
      match dictGet d "content" with
      | some (.vstr s) => some s
      | _ => none
  | _ => none

/-- The `role` string of a message value. -/
def msgRole (m : Option PyVal) : Option String :=
  match m with
  | some (.vdict d) =>
      match dictGet d "role" with
      | some (.vstr s) => some s
      | _ => none
  | _ => none

/-- Whether a message value has the key `k`. -/
def msgHasKey (m : Option PyVal) (k : String) : Bool :=
  match m with
  | some (.vdict d) => hasKeyD d k
  | _ => false

/-- The non-empty-string-content check of a single output message
(claim C1's invariant). -/
def nonEmptyStrContent (m : PyVal) : Bool :=
  match m with
  | .vdict d =>
      match dictGet d "content" with
      | some (.vstr s) => !s.data.isEmpty
      | _ => false
  | _ => false

/-- Claim C1's cleanliness of one output message: non-empty string
content and none of the four tool-related fields. -/
def cleanMsg (m : PyVal) : Bool :=
  nonEmptyStrContent m &&
    !(msgHasKey (some m) "tool_calls" || msgHasKey (some m) "function_call" ||
      msgHasKey (some m) "tool_call_id" || msgHasKey (some m) "name")

/-- Claim C1 as stated, as a predicate on an input body: every message
of a successful sanitizer output is clean. -/
def sanitizeOutputClean (body : PyDict) : Bool :=
  match role_flip_sanitize body with
  | Except.ok out =>
      match messagesOf out with
      | some l => l.all cleanMsg
      | none => true
  | Except.error _ => true

/-! ## General helper lemmas -/

theorem hasKeyD_dictDel_self (d : PyDict) (k : String) :
    hasKeyD (dictDel d k) k = false := by
  induction d with
  | nil => simp [dictDel, hasKeyD]
  | cons p rest ih =>
      obtain ⟨k₀, v₀⟩ := p
      by_cases h : k₀ = k
      · simpa [dictDel, h] using ih
      · simpa [dictDel, hasKeyD, h] using ih

theorem hasKeyD_dictDel_ne (d : PyDict) (k k' : String) (h : k' ≠ k) :
    hasKeyD (dictDel d k) k' = hasKeyD d k' := by
  induction d with
  | nil => simp [dictDel]
  | cons p rest ih =>
      obtain ⟨k₀, v₀⟩ := p
      by_cases h₀ : k₀ = k
      · subst h₀
        simpa [dictDel, hasKeyD, Ne.symm h] using ih
      · by_cases h₁ : k₀ = k'
        · subst h₁
          simp [dictDel, hasKeyD, h₀]
        · simpa [dictDel, hasKeyD, h₀, h₁] using ih

theorem hasKeyD_dictSet_ne (d : PyDict) (k k' : String) (v : PyVal) (h : k' ≠ k) :
    hasKeyD (dictSet d k v) k' = hasKeyD d k' := by
  induction d with
  | nil => simp [dictSet, hasKeyD, Ne.symm h]
  | cons p rest ih =>
      obtain ⟨k₀, v₀⟩ := p
      by_cases h₀ : k₀ = k
      · subst h₀
        simp [dictSet, hasKeyD, Ne.symm h]
      · by_cases h₁ : k₀ = k'
        · subst h₁
          simp [dictSet, hasKeyD, h₀]
        · simp [dictSet, hasKeyD, h₀, h₁, ih]

theorem isRole_unique (r : Option PyVal) (a b : String) (ha : isRole r a = true)
    (hab : a ≠ b) : isRole r b = false := by
  rw [isRole_iff] at ha
  subst ha
  simp [isRole, hab]

/-- After flattening, keys other than `content` are untouched. -/
theorem dictGet_flatten_ne (d : PyDict) (k : String) (h : k ≠ "content") :
    dictGet (flattenContent d) k = dictGet d k := by
  unfold flattenContent
  split <;> first | rfl | rw [dictGet_dictSet_ne _ _ _ _ h]

/-- After flattening, `content` holds the string `strOfContent`. -/
theorem dictGet_flatten_content (d : PyDict) :
    dictGet (flattenContent d) "content" =
      some (.vstr (strOfContent (flattenContent d))) := by
  unfold flattenContent strOfContent
  split
  · rw [dictGet_dictSet_self]
  · rename_i s heq
    rw [heq]
  · rw [dictGet_dictSet_self]

/-- The placeholder step touches only `content`. -/
theorem dictGet_fallback_ne (d : PyDict) (k : String) (h : k ≠ "content") :
    dictGet (fallbackStep d) k = dictGet d k := by
  unfold fallbackStep
  split
  · split
    · rfl
    · rw [dictGet_dictSet_ne _ _ _ _ h]
  · rw [dictGet_dictSet_ne _ _ _ _ h]

theorem hasKeyD_fallback_ne (d : PyDict) (k : String) (h : k ≠ "content") :
    hasKeyD (fallbackStep d) k = hasKeyD d k := by
  unfold fallbackStep
  split
  · split
    · rfl
    · rw [hasKeyD_dictSet_ne _ _ _ _ h]
  · rw [hasKeyD_dictSet_ne _ _ _ _ h]

/-- When `content` holds a string before the placeholder step, it holds
a non-empty string afterwards. -/
theorem fallback_content (d : PyDict) (s : String)
    (h : dictGet d "content" = some (.vstr s)) :
    ∃ s', dictGet (fallbackStep d) "content" = some (.vstr s') ∧ s' ≠ "" := by
  unfold fallbackStep
  rw [h]
  by_cases hs : pyTruthy (.vstr s) = true
  · refine ⟨s, ?_, (pyTruthy_vstr_iff s).mp hs⟩
    simp [hs, h]
  · refine ⟨".", ?_, by decide⟩
    simp [Bool.not_eq_true] at hs
    simp [hs, dictGet_dictSet_self]


theorem lastMatchFrom_eq (hay pat : List Char) (hs : pat <:+ hay) :
    ∀ i, hay.length - pat.length ≤ i → i ≤ hay.length →
      lastMatchFrom hay pat i = some (hay.length - pat.length) := by
  have hple : pat.length ≤ hay.length := hs.length_le
  have hdrop : hay.drop (hay.length - pat.length) = pat := by
    obtain ⟨u, rfl⟩ := hs
    simp
  intro i
  induction i with
  | zero =>
      intro h1 h2
      have ht : hay.length - pat.length = 0 := Nat.le_zero.mp h1
      rw [ht]
      have : pat <+: hay := by
        have := hdrop
        rw [ht] at this
        simp at this
        exact this ▸ List.prefix_refl pat
      simp [lastMatchFrom, this]
  | succ j ih =>
      intro h1 h2
      by_cases he : hay.length - pat.length = j + 1
      · have hpre : pat <+: hay.drop (j + 1) := by
          rw [← he, hdrop]
        simp [lastMatchFrom, hpre, he]
      · have hlt : hay.length - pat.length ≤ j := by omega
        have hnot : ¬ pat <+: hay.drop (j + 1) := by
          intro hpre
          have := hpre.length_le
          rw [List.length_drop] at this
          omega
        rw [lastMatchFrom, if_neg (by simpa using hnot)]
        exact ih hlt (by omega)

/-- `rsplit(sep, 1)[0]` on a string that ends with `sep` removes exactly
that trailing occurrence. -/
theorem rsplit1Head_of_endsWith (s sep : String)
    (h : pyEndsWith s sep = true) :
    rsplit1Head s sep = strDropRight s sep.data.length := by
  have hs : sep.data <:+ s.data := of_decide_eq_true h
  unfold rsplit1Head
  rw [lastMatchFrom_eq s.data sep.data hs s.data.length
    (Nat.sub_le _ _) le_rfl]
  rfl

/-- Two incomparable suffix patterns cannot both match. -/
theorem pyEndsWith_excl (s a b : String) (ha : pyEndsWith s a = true)
    (h : (decide (a.data <:+ b.data) || decide (b.data <:+ a.data)) = false) :
    pyEndsWith s b = false := by
  rw [pyEndsWith, decide_eq_false_iff_not]
  intro hbs
  have has : a.data <:+ s.data := of_decide_eq_true ha
  simp only [Bool.or_eq_false_iff, decide_eq_false_iff_not] at h
  rcases List.suffix_or_suffix_of_suffix has hbs with hc | hc
  · exact h.1 hc
  · exact h.2 hc

/-- C9: `parse_model_id` strips a trailing `-none`/`-low`/`-medium`/`-high`
suffix together with its hyphen and returns the mapped effort hint
(`minimal`/`low`/`medium`/`high`); with no matching suffix the identifier
is returned unchanged with no hint.  The function is a total Lean
function, so it can never raise. -/
theorem C9_parse_model_id (s : String) :
    (pyEndsWith s "-none" = true →
      parse_model_id s = (strDropRight s 5, some "minimal")) ∧
    (pyEndsWith s "-low" = true →
      parse_model_id s = (strDropRight s 4, some "low")) ∧
    (pyEndsWith s "-medium" = true →
      parse_model_id s = (strDropRight s 7, some "medium")) ∧
    (pyEndsWith s "-high" = true →
      parse_model_id s = (strDropRight s 5, some "high")) ∧
    ((pyEndsWith s "-none" || pyEndsWith s "-low" || pyEndsWith s "-medium" ||
        pyEndsWith s "-high") = false → parse_model_id s = (s, none)) := by
  have e1 : ("-" ++ "none" : String) = "-none" := rfl
  have e2 : ("-" ++ "low" : String) = "-low" := rfl
  have e3 : ("-" ++ "medium" : String) = "-medium" := rfl
  have e4 : ("-" ++ "high" : String) = "-high" := rfl
  refine ⟨?_, ?_, ?_, ?_, ?_⟩
  · intro h
    simp only [parse_model_id, REASONING_LEVELS, parseModelGo, e1, h, if_true]
    rw [rsplit1Head_of_endsWith s "-none" h]
    rfl
  · intro h
    have hn : pyEndsWith s "-none" = false :=
      pyEndsWith_excl s "-low" "-none" h (by decide)
    simp only [parse_model_id, REASONING_LEVELS, parseModelGo, e1, e2, h, hn,
      if_true, if_false, Bool.false_eq_true]
    rw [rsplit1Head_of_endsWith s "-low" h]
    rfl
  · intro h
    have hn : pyEndsWith s "-none" = false :=
      pyEndsWith_excl s "-medium" "-none" h (by decide)
    have hl : pyEndsWith s "-low" = false :=
      pyEndsWith_excl s "-medium" "-low" h (by decide)
    simp only [parse_model_id, REASONING_LEVELS, parseModelGo, e1, e2, e3, h, hn, hl,
      if_true, if_false, Bool.false_eq_true]
    rw [rsplit1Head_of_endsWith s "-medium" h]
    rfl
  · intro h
    have hn : pyEndsWith s "-none" = false :=
      pyEndsWith_excl s "-high" "-none" h (by decide)
    have hl : pyEndsWith s "-low" = false :=
      pyEndsWith_excl s "-high" "-low" h (by decide)
    have hm : pyEndsWith s "-medium" = false :=
      pyEndsWith_excl s "-high" "-medium" h (by decide)
    simp only [parse_model_id, REASONING_LEVELS, parseModelGo, e1, e2, e3, e4, h, hn, hl, hm,
      if_true, if_false, Bool.false_eq_true]
    rw [rsplit1Head_of_endsWith s "-high" h]
    rfl
  · intro h
    simp only [Bool.or_eq_false_iff] at h
    simp only [parse_model_id, REASONING_LEVELS, parseModelGo, e1, e2, e3, e4,
      h.1.1.1, h.1.1.2, h.1.2, h.2, if_false, Bool.false_eq_true]

/-- Witness for C9 at a concrete model identifier. -/
theorem C9_parse_model_id_witness :
    parse_model_id "gemini-2.5-pro-high" =
      (strDropRight "gemini-2.5-pro-high" 5, some "high") :=
  (C9_parse_model_id "gemini-2.5-pro-high").2.2.2.1 (by decide)

/-- C5: for tool-result content of length `L > MAX_LOG_LENGTH`, the
truncated content is exactly the first `MAX_LOG_LENGTH / 2` characters,
the elision marker naming `L - MAX_LOG_LENGTH` removed characters, and
exactly the last `MAX_LOG_LENGTH / 2` characters; content of length at
most the maximum is unchanged; and `toolStep` applies the read-only
wrapper to the truncated content (truncation happens before wrapping). -/
theorem C5_truncation (s : String) :
    (s.data.length > MAX_LOG_LENGTH →
      (truncateLog s).data =
        s.data.take (MAX_LOG_LENGTH / 2) ++
          ("\n\n[...System: Output Truncated (" ++
            toString (s.data.length - MAX_LOG_LENGTH) ++ " chars removed)...]\n\n").data ++
          s.data.drop (s.data.length - MAX_LOG_LENGTH / 2)) ∧
    (s.data.length ≤ MAX_LOG_LENGTH → truncateLog s = s) ∧
    (∀ d cs, dictGet (toolStep d cs) "content" =
      some (.vstr (wrapReadOnly (truncateLog cs)))) := by
  refine ⟨?_, ?_, ?_⟩
  · intro h
    rw [truncateLog, if_pos h]
    simp only [String.data_append, strTake, strTakeRight]
    simp only [List.append_assoc]
  · intro h
    rw [truncateLog, if_neg (by omega)]
  · intro d cs
    unfold toolStep
    rw [dictGet_dictDel_ne _ _ _ (by decide), dictGet_dictDel_ne _ _ _ (by decide),
      dictGet_dictSet_self]

/-- A tool log one character over the limit. -/
def longToolOutput : String := String.mk (List.replicate 30001 'a')

/-- Witness for C5 at a concrete over-limit string. -/
theorem C5_truncation_witness :
    (truncateLog longToolOutput).data =
      longToolOutput.data.take (MAX_LOG_LENGTH / 2) ++
        ("\n\n[...System: Output Truncated (" ++
          toString (longToolOutput.data.length - MAX_LOG_LENGTH) ++
          " chars removed)...]\n\n").data ++
        longToolOutput.data.drop (longToolOutput.data.length - MAX_LOG_LENGTH / 2) :=
  (C5_truncation longToolOutput).1 (by
    show (List.replicate 30001 'a').length > MAX_LOG_LENGTH
    rw [List.length_replicate]
    decide)

/-- C8: a backend status `>= 400` is returned to the caller as a
non-streamed response with the backend's status code and the fully-read
backend body, unmodified. -/
theorem C8_error_passthrough (raw_body : PyDict) (envToken : Option String)
    (gcloud : Except Unit String) (project region : String)
    (resp : BackendResp) (req : OutboundRequest)
    (hprep : prepareRequest raw_body envToken gcloud project region = Except.ok req)
    (hstatus : resp.status ≥ 400) :
    chat_completions raw_body envToken gcloud project region resp =
      DispatchOutcome.errorResponse resp.status (backendFullBody resp) := by
  unfold chat_completions
  rw [hprep, if_pos hstatus]

/-- Witness for C8: an empty request body prepared with failing
credentials, against a backend 404 with a two-chunk error body. -/
theorem C8_error_passthrough_witness :
    chat_completions [] none (Except.error ()) "proj" "us-west1"
        ⟨404, ["not ", "found"]⟩ =
      DispatchOutcome.errorResponse 404
        (backendFullBody ⟨404, ["not ", "found"]⟩) :=
  C8_error_passthrough [] none (Except.error ()) "proj" "us-west1"
    ⟨404, ["not ", "found"]⟩
    { url := "https://us-west1-aiplatform.googleapis.com/v1/projects/proj/locations/us-west1/endpoints/openapi/chat/completions"
      authorization := "Bearer "
      contentType := "application/json"
      jsonBody := [("model", .vstr "")] }
    (by rfl) (by decide)

theorem streamLoop_take {χ : Type} (chunks : List χ) (k : Nat) :
    (streamLoop chunks none (some k)).1 = chunks.take k := by
  induction chunks generalizing k with
  | nil =>
      cases k <;> simp [streamLoop]
  | cons c rest ih =>
      cases k with
      | zero => simp [streamLoop]
      | succ k' => simp [streamLoop, ih]

theorem closeCount_monitored {χ : Type} (chunks : List χ)
    (failAfter pulls : Option Nat) :
    closeCount (monitoredStreamEvents chunks failAfter pulls) = 1 := by
  unfold monitoredStreamEvents closeCount
  rw [List.countP_append]
  simp [List.countP_map, Function.comp]

theorem yieldedChunks_monitored {χ : Type} (chunks : List χ)
    (failAfter pulls : Option Nat) :
    yieldedChunks (monitoredStreamEvents chunks failAfter pulls) =
      (streamLoop chunks failAfter pulls).1 := by
  unfold monitoredStreamEvents yieldedChunks
  rw [List.filterMap_append, List.filterMap_map]
  have hfun : ((fun (e : StreamEvent χ) =>
      match e with | StreamEvent.yielded c => some c | _ => none) ∘
        StreamEvent.yielded) = some := funext (fun c => rfl)
  rw [hfun, List.filterMap_some]
  simp

/-- C7: on every dispatch outcome -- full relay, caller disconnect after
`k` chunks, or an exception in the backend iterator -- the trace of the
dispatch contains exactly one connection-release event, and a caller
disconnect after `k` chunks relays exactly the first `k` backend chunks
(the remaining ones are never drained).  The `>= 400` branch's trace is
the single release produced by reading the error body to completion. -/
theorem C7_connection_release {χ : Type} (status : Nat) (chunks : List χ)
    (failAfter pulls : Option Nat) :
    closeCount (dispatchEvents status chunks failAfter pulls) = 1 ∧
    (status < 400 → failAfter = none → ∀ k, pulls = some k →
      yieldedChunks (dispatchEvents status chunks failAfter pulls) = chunks.take k) := by
  constructor
  · unfold dispatchEvents
    split
    · rfl
    · exact closeCount_monitored chunks failAfter pulls
  · intro h1 h2 k h3
    subst h2; subst h3
    unfold dispatchEvents
    rw [if_neg (by omega)]
    rw [yieldedChunks_monitored, streamLoop_take]

/-- Witness for C7: a disconnect after 2 of 4 chunks on a 200 response. -/
theorem C7_connection_release_witness :
    yieldedChunks (dispatchEvents 200 ["a", "b", "c", "d"] none (some 2)) =
      ["a", "b", "c", "d"].take 2 :=
  (C7_connection_release 200 ["a", "b", "c", "d"] none (some 2)).2
    (by decide) rfl 2 rfl

theorem prepareRequest_auth (body : PyDict) (envToken : Option String)
    (gcloud : Except Unit String) (project region : String) (req : OutboundRequest)
    (h : prepareRequest body envToken gcloud project region = Except.ok req) :
    req.authorization = "Bearer " ++ get_vertex_token envToken gcloud := by
  unfold prepareRequest at h
  split at h
  · exact absurd h (by simp)
  · split at h
    · dsimp only [] at h
      split at h
      · cases h
        rfl
      · exact absurd h (by simp)
    · dsimp only [] at h
      split at h
      · cases h
        rfl
      · exact absurd h (by simp)

/-- C10 counterexample: with `VERTEX_ACCESS_TOKEN` set (to the empty
string) the function does not return the environment value but falls
through to the gcloud path. -/
theorem C10_counterexample :
    get_vertex_token (some "") (Except.ok "tok") = "tok" ∧ ("tok" : String) ≠ "" :=
  ⟨rfl, by decide⟩

/-- C10 (amended): `get_vertex_token` is total; it returns the
`VERTEX_ACCESS_TOKEN` value when that is set *non-empty*, otherwise the
stripped gcloud stdout on success, otherwise `""`; and a request whose
credentials are unavailable is still prepared with the header value
`Bearer ` (empty token) instead of failing locally. -/
theorem C10_token_fallback :
    (∀ t gcloud, t ≠ "" → get_vertex_token (some t) gcloud = t) ∧
    (∀ envToken out, (envToken = none ∨ envToken = some "") →
      get_vertex_token envToken (Except.ok out) = pyStrip out) ∧
    (∀ envToken, (envToken = none ∨ envToken = some "") →
      get_vertex_token envToken (Except.error ()) = "") ∧
    (∀ body project region req,
      prepareRequest body none (Except.error ()) project region = Except.ok req →
      req.authorization = "Bearer ") := by
  refine ⟨?_, ?_, ?_, ?_⟩
  · intro t gcloud ht
    simp [get_vertex_token, (pyTruthy_vstr_iff t).mpr ht]
  · intro envToken out h
    rcases h with h | h <;> subst h <;> rfl
  · intro envToken h
    rcases h with h | h <;> subst h <;> rfl
  · intro body project region req h
    exact (prepareRequest_auth body none (Except.error ()) project region req h).trans rfl

/-- Witness for C10 at concrete environments. -/
theorem C10_token_fallback_witness :
    get_vertex_token (some "abc") (Except.error ()) = "abc" :=
  C10_token_fallback.1 "abc" (Except.error ()) (by decide)

/-- C4 counterexample: with no `VERTEX_ACCESS_TOKEN` and a failing
gcloud invocation the request is dispatched and streamed (outcome is
not an internal error), the token being `""`. -/
theorem C4_counterexample :
    chat_completions [] none (Except.error ()) "proj" "us-west1" ⟨200, ["data"]⟩ =
      DispatchOutcome.streamed 200 "text/event-stream" ∧
    get_vertex_token none (Except.error ()) = "" :=
  ⟨rfl, rfl⟩

/-- C4 (amended): when the token provider cannot produce a credential,
the request still proceeds -- it is forwarded with the empty bearer
token `Bearer ` and, on a successful backend status, streamed; no
500-class error is produced for the credential failure. -/
theorem C4_credential_failure_proceeds (body : PyDict) (project region : String)
    (resp : BackendResp) (req : OutboundRequest)
    (hprep : prepareRequest body none (Except.error ()) project region = Except.ok req)
    (hst : resp.status < 400) :
    chat_completions body none (Except.error ()) project region resp =
      DispatchOutcome.streamed resp.status "text/event-stream" ∧
    req.authorization = "Bearer " := by
  constructor
  · unfold chat_completions
    rw [hprep, if_neg (by omega)]
  · exact (prepareRequest_auth body none (Except.error ()) project region req hprep).trans rfl

/-- Witness for C4 at a concrete request. -/
theorem C4_credential_failure_proceeds_witness :
    chat_completions [] none (Except.error ()) "p" "r" ⟨200, ["x"]⟩ =
      DispatchOutcome.streamed 200 "text/event-stream" ∧
    OutboundRequest.authorization
      { url := "https://r-aiplatform.googleapis.com/v1/projects/p/locations/r/endpoints/openapi/chat/completions"
        authorization := "Bearer "
        contentType := "application/json"
        jsonBody := [("model", .vstr "")] } = "Bearer " :=
  C4_credential_failure_proceeds [] "p" "r" ⟨200, ["x"]⟩
    { url := "https://r-aiplatform.googleapis.com/v1/projects/p/locations/r/endpoints/openapi/chat/completions"
      authorization := "Bearer "
      contentType := "application/json"
      jsonBody := [("model", .vstr "")] }
    (by rfl) (by decide)

/-- The shapes of `tool_calls`/`function_call` on assistant/model
messages that the sanitizer survives: `tool_calls` must iterate without
an `AttributeError`/`TypeError` and `function_call` must be a dict.
Other messages are unconstrained (any dict). -/
def wfMsg : PyVal → Bool
  | .vdict d =>
      (!(isRole (dictGet d "role") "assistant" || isRole (dictGet d "role") "model")) ||
      ((match dictGet d "tool_calls" with
        | none => true
        | some v => isOkE (toolCallLog v)) &&
       (match dictGet d "function_call" with
        | none => true
        | some (.vdict _) => true
        | some _ => false))
  | _ => false

/-- Bodies on which the sanitizer cannot raise: every message is a dict
satisfying `wfMsg`, and a non-list `messages` value iterates zero
times. -/
def wfBody (body : PyDict) : Bool :=
  match dictGet body "messages" with
  | none => true
  | some (.vlist msgs) => msgs.all wfMsg
  | some (.vstr s) => s.data.isEmpty
  | some (.vdict d) => d.isEmpty
  | some _ => false

theorem assistantStep_isOk (d : PyDict) (cs : String)
    (htc : ∀ v, dictGet d "tool_calls" = some v → isOkE (toolCallLog v) = true)
    (hfc : ∀ v, dictGet d "function_call" = some v → ∃ fc, v = .vdict fc) :
    isOkE (assistantStep d cs) = true := by
  unfold assistantStep
  cases h1 : dictGet d "tool_calls" with
  | none =>
      simp only [h1]
      cases h2 : dictGet d "function_call" with
      | none => simp only [h2]; split <;> rfl
      | some v =>
          obtain ⟨fc, rfl⟩ := hfc v h2
          simp only [h2]
          split <;> rfl
  | some v =>
      have hok := htc v h1
      cases htl : toolCallLog v with
      | error e => rw [htl] at hok; exact absurd hok (by simp [isOkE])
      | ok log =>
          simp only [h1, htl]
          have h2eq : dictGet (dictDel d "tool_calls") "function_call" =
              dictGet d "function_call" := dictGet_dictDel_ne _ _ _ (by decide)
          cases h2 : dictGet d "function_call" with
          | none => simp only [h2eq, h2]; split <;> rfl
          | some w =>
              obtain ⟨fc, rfl⟩ := hfc w h2
              simp only [h2eq, h2]
              split <;> rfl

theorem processMsg_ok_of_wf (m : PyVal) (h : wfMsg m = true) :
    isOkE (processMsg m) = true := by
  cases m with
  | vdict d =>
      by_cases hA : (isRole (dictGet d "role") "assistant" ||
          isRole (dictGet d "role") "model") = true
      · have hcond : ((match dictGet d "tool_calls" with
            | none => true
            | some v => isOkE (toolCallLog v)) &&
           (match dictGet d "function_call" with
            | none => true
            | some (.vdict _) => true
            | some _ => false)) = true := by
          rw [wfMsg, hA] at h
          simpa using h
        rw [Bool.and_eq_true] at hcond
        have hdev : isRole (dictGet d "role") "developer" = false := by
          rcases Bool.or_eq_true_iff.mp hA with hr | hr
          · exact isRole_unique _ _ _ hr (by decide)
          · exact isRole_unique _ _ _ hr (by decide)
        have hstep : isOkE (assistantStep (flattenContent d)
            (strOfContent (flattenContent d))) = true := by
          apply assistantStep_isOk
          · intro v hv
            rw [dictGet_flatten_ne d _ (by decide)] at hv
            have := hcond.1
            rw [hv] at this
            exact this
          · intro v hv
            rw [dictGet_flatten_ne d _ (by decide)] at hv
            have := hcond.2
            rw [hv] at this
            cases v with
            | vdict fc => exact ⟨fc, rfl⟩
            | vstr s => exact absurd this (by simp)
            | vint n => exact absurd this (by simp)
            | vbool b => exact absurd this (by simp)
            | vnone => exact absurd this (by simp)
            | vlist xs => exact absurd this (by simp)
        simp only [processMsg, hA, hdev, if_true, Bool.false_eq_true, if_false]
        cases hst : assistantStep (flattenContent d) (strOfContent (flattenContent d)) with
        | error e => rw [hst] at hstep; exact absurd hstep (by simp [isOkE])
        | ok d3 => rfl
      · simp only [processMsg]
        rw [if_neg hA]
        rfl
  | vstr s => simp [wfMsg] at h
  | vint n => simp [wfMsg] at h
  | vbool b => simp [wfMsg] at h
  | vnone => simp [wfMsg] at h
  | vlist xs => simp [wfMsg] at h

theorem processAll_isOk (msgs : List PyVal) (h : msgs.all wfMsg = true) :
    isOkE (processAll msgs) = true := by
  induction msgs with
  | nil => rfl
  | cons m rest ih =>
      rw [List.all_cons, Bool.and_eq_true] at h
      have h1 := processMsg_ok_of_wf m h.1
      cases hp : processMsg m with
      | error e => rw [hp] at h1; exact absurd h1 (by simp [isOkE])
      | ok m' =>
          have h2 := ih h.2
          cases hq : processAll rest with
          | error e => rw [hq] at h2; exact absurd h2 (by simp [isOkE])
          | ok rest' => simp [processAll, hp, hq, isOkE]

/-- C2 (amended): `role_flip_sanitize` never raises on any body whose
assistant/model messages carry well-shaped `tool_calls` (a list of
dicts whose `function` field, when present, is a dict) and
`function_call` (a dict) values and whose `messages` elements are
dicts; in particular missing content, non-string content, unknown
roles and an absent `messages` key never fail. -/
theorem C2_sanitize_total (body : PyDict) (h : wfBody body = true) :
    isOkE (role_flip_sanitize body) = true := by
  cases hm : dictGet body "messages" with
  | none => simp [role_flip_sanitize, hm, isOkE]
  | some v =>
      rw [wfBody, hm] at h
      cases v with
      | vlist msgs =>
          have hall : msgs.all wfMsg = true := by simpa using h
          have hp := processAll_isOk msgs hall
          cases hq : processAll msgs with
          | error e => rw [hq] at hp; exact absurd hp (by simp [isOkE])
          | ok cleaned => simp [role_flip_sanitize, hm, hq, isOkE]
      | vstr s =>
          have hs : s = "" := by
            cases s with
            | mk l => cases l with
              | nil => rfl
              | cons c cs => simp at h
          subst hs
          simp [role_flip_sanitize, hm, isOkE]
      | vdict d =>
          have hd : d = [] := by
            cases d with
            | nil => rfl
            | cons p rest => simp at h
          subst hd
          simp [role_flip_sanitize, hm, isOkE]
      | vint n => simp at h
      | vbool b => simp at h
      | vnone => simp at h

/-- C2 counterexample: a message with a non-dict `function_call` value
makes the sanitizer raise `AttributeError` (`fc.get` on an int), so it
is not total on arbitrarily shaped inputs. -/
theorem C2_counterexample :
    isOkE (role_flip_sanitize [("messages", .vlist [.vdict
      [("role", .vstr "assistant"), ("content", .vstr "x"),
       ("function_call", .vint 5)]])]) = false := rfl

/-- A body made of degenerate but well-shaped messages: unknown role,
missing content, integer content, assistant tool call without a name. -/
def degenerateBody : PyDict :=
  [("messages", .vlist
     [.vdict [("role", .vstr "weird")],
      .vdict [("content", .vint 7)],
      .vdict [("role", .vstr "assistant"),
              ("tool_calls", .vlist [.vdict [("function", .vdict [])]])]])]

/-- Witness for C2 on the degenerate body. -/
theorem C2_sanitize_total_witness :
    isOkE (role_flip_sanitize degenerateBody) = true :=
  C2_sanitize_total degenerateBody (by rfl)

theorem wrapReadOnly_ne_empty (s : String) : wrapReadOnly s ≠ "" := by
  simp [wrapReadOnly, String.ext_iff, String.data_append]

theorem fallbackStep_noop (d : PyDict) (s : String)
    (h : dictGet d "content" = some (.vstr s)) (hs : s ≠ "") :
    fallbackStep d = d := by
  unfold fallbackStep
  rw [h]
  show (if pyTruthy (.vstr s) = true then d else dictSet d "content" (.vstr ".")) = d
  rw [if_pos ((pyTruthy_vstr_iff s).mpr hs)]

theorem toolStep_content (d : PyDict) (cs : String) :
    dictGet (toolStep d cs) "content" =
      some (.vstr (wrapReadOnly (truncateLog cs))) := by
  unfold toolStep
  rw [dictGet_dictDel_ne _ _ _ (by decide), dictGet_dictDel_ne _ _ _ (by decide),
    dictGet_dictSet_self]

theorem toolStep_role (d : PyDict) (cs : String) :
    dictGet (toolStep d cs) "role" = some (.vstr "user") := by
  unfold toolStep
  rw [dictGet_dictDel_ne _ _ _ (by decide), dictGet_dictDel_ne _ _ _ (by decide),
    dictGet_dictSet_ne _ _ _ _ (by decide), dictGet_dictSet_self]

theorem processMsg_tool (d : PyDict)
    (hrole : (isRole (dictGet d "role") "tool" ||
      isRole (dictGet d "role") "function") = true) :
    processMsg (.vdict d) = Except.ok (.vdict (fallbackStep
      (toolStep (flattenContent d) (strOfContent (flattenContent d))))) := by
  have hna : isRole (dictGet d "role") "assistant" = false := by
    rcases Bool.or_eq_true_iff.mp hrole with hr | hr
    · exact isRole_unique _ _ _ hr (by decide)
    · exact isRole_unique _ _ _ hr (by decide)
  have hnm : isRole (dictGet d "role") "model" = false := by
    rcases Bool.or_eq_true_iff.mp hrole with hr | hr
    · exact isRole_unique _ _ _ hr (by decide)
    · exact isRole_unique _ _ _ hr (by decide)
  have hnd : isRole (dictGet d "role") "developer" = false := by
    rcases Bool.or_eq_true_iff.mp hrole with hr | hr
    · exact isRole_unique _ _ _ hr (by decide)
    · exact isRole_unique _ _ _ hr (by decide)
  simp only [processMsg, hna, hnm, hnd, hrole, Bool.or_self, Bool.false_eq_true,
    if_false, if_true]

/-- C6 (amended): a `tool`/`function`-role message is re-attributed to
role `user`, its content is the read-only wrapper around the (possibly
truncated) flattened content -- with a double newline before the
`[SYSTEM: ...]` trailer, as the code writes -- and its
`tool_call_id`/`name` fields are removed. -/
theorem C6_tool_wrap (d : PyDict) (out : PyVal)
    (hrole : (isRole (dictGet d "role") "tool" ||
      isRole (dictGet d "role") "function") = true)
    (h : processMsg (.vdict d) = Except.ok out) :
    msgRole (some out) = some "user" ∧
    msgContent (some out) =
      some (wrapReadOnly (truncateLog (strOfContent (flattenContent d)))) ∧
    msgHasKey (some out) "tool_call_id" = false ∧
    msgHasKey (some out) "name" = false := by
  rw [processMsg_tool d hrole] at h
  cases h
  have hcont := toolStep_content (flattenContent d) (strOfContent (flattenContent d))
  have hfb := fallbackStep_noop _ _ hcont (wrapReadOnly_ne_empty _)
  rw [hfb]
  refine ⟨?_, ?_, ?_, ?_⟩
  · simp [msgRole, toolStep_role]
  · simp [msgContent, hcont]
  · show hasKeyD _ "tool_call_id" = false
    unfold toolStep
    rw [hasKeyD_dictDel_ne _ _ _ (by decide), hasKeyD_dictDel_self]
  · show hasKeyD _ "name" = false
    unfold toolStep
    rw [hasKeyD_dictDel_self]

/-- The wrapper template exactly as claim C6 states it: a single
newline before the `[SYSTEM: ...]` trailer. -/
def claimedToolWrap (s : String) : String :=
  "[Internal Execution Result - READ ONLY]\n" ++ s ++
    "\n[SYSTEM: Action finished. Please report status to user now.]"

/-- C6 counterexample: the sanitized tool message's content is the
code's wrapper (with `\n\n` before the trailer), which differs from the
claim's template. -/
theorem C6_counterexample :
    msgContent (msgAt (role_flip_sanitize [("messages", .vlist [.vdict
      [("role", .vstr "tool"), ("content", .vstr "x")]])]) 1) =
      some (wrapReadOnly "x") ∧
    wrapReadOnly "x" ≠ claimedToolWrap "x" := ⟨rfl, by decide⟩

/-- A concrete tool-result message and its sanitized form. -/
def toolMsgIn : PyDict := [("role", .vstr "tool"), ("content", .vstr "r")]

/-- The sanitized form of `toolMsgIn`. -/
def toolMsgOut : PyVal :=
  .vdict [("role", .vstr "user"), ("content", .vstr (wrapReadOnly "r"))]

/-- Witness for C6 on a concrete tool message. -/
theorem C6_tool_wrap_witness :
    msgRole (some toolMsgOut) = some "user" ∧
    msgContent (some toolMsgOut) =
      some (wrapReadOnly (truncateLog (strOfContent (flattenContent toolMsgIn)))) ∧
    msgHasKey (some toolMsgOut) "tool_call_id" = false ∧
    msgHasKey (some toolMsgOut) "name" = false :=
  C6_tool_wrap toolMsgIn toolMsgOut (by rfl) (by rfl)

theorem processMsg_assistant (d : PyDict)
    (hA : (isRole (dictGet d "role") "assistant" ||
      isRole (dictGet d "role") "model") = true) :
    processMsg (.vdict d) =
      (match assistantStep (flattenContent d) (strOfContent (flattenContent d)) with
       | Except.error e => Except.error e
       | Except.ok d3 => Except.ok (.vdict (fallbackStep d3))) := by
  have hnd : isRole (dictGet d "role") "developer" = false := by
    rcases Bool.or_eq_true_iff.mp hA with hr | hr
    · exact isRole_unique _ _ _ hr (by decide)
    · exact isRole_unique _ _ _ hr (by decide)
  have hnt : isRole (dictGet d "role") "tool" = false := by
    rcases Bool.or_eq_true_iff.mp hA with hr | hr
    · exact isRole_unique _ _ _ hr (by decide)
    · exact isRole_unique _ _ _ hr (by decide)
  have hnf : isRole (dictGet d "role") "function" = false := by
    rcases Bool.or_eq_true_iff.mp hA with hr | hr
    · exact isRole_unique _ _ _ hr (by decide)
    · exact isRole_unique _ _ _ hr (by decide)
  simp only [processMsg, hA, hnd, hnt, hnf, Bool.or_self, Bool.false_eq_true,
    if_false, if_true]

theorem processMsg_developer (d : PyDict)
    (hD : isRole (dictGet d "role") "developer" = true) :
    processMsg (.vdict d) =
      Except.ok (.vdict (fallbackStep
        (dictSet (flattenContent d) "role" (.vstr "system")))) := by
  have hna : isRole (dictGet d "role") "assistant" = false :=
    isRole_unique _ _ _ hD (by decide)
  have hnm : isRole (dictGet d "role") "model" = false :=
    isRole_unique _ _ _ hD (by decide)
  have hnt : isRole (dictGet d "role") "tool" = false :=
    isRole_unique _ _ _ hD (by decide)
  have hnf : isRole (dictGet d "role") "function" = false :=
    isRole_unique _ _ _ hD (by decide)
  simp only [processMsg, hD, hna, hnm, hnt, hnf, Bool.or_self, Bool.false_eq_true,
    if_false, if_true]

theorem processMsg_other (d : PyDict)
    (hna : isRole (dictGet d "role") "assistant" = false)
    (hnm : isRole (dictGet d "role") "model" = false)
    (hnd : isRole (dictGet d "role") "developer" = false)
    (hnt : isRole (dictGet d "role") "tool" = false)
    (hnf : isRole (dictGet d "role") "function" = false) :
    processMsg (.vdict d) = Except.ok (.vdict (fallbackStep (flattenContent d))) := by
  simp only [processMsg, hna, hnm, hnd, hnt, hnf, Bool.or_self, Bool.false_eq_true,
    if_false, if_true]

theorem assistantStep_spec (d : PyDict) (cs : String) (d' : PyDict)
    (h : assistantStep d cs = Except.ok d') :
    (d' = d ∧ dictGet d "tool_calls" = none ∧ dictGet d "function_call" = none ∧
      containsMarker cs = false) ∨
    (∃ t logSuffix, d' = dictSet (dictSet t "role" (.vstr "user")) "content"
      (.vstr ("[Internal Context: Assistant\x27s previous action]\n" ++ cs ++
        "\n" ++ logSuffix))) := by
  unfold assistantStep at h
  cases h1 : dictGet d "tool_calls" with
  | none =>
      simp only [h1] at h
      cases h2 : dictGet d "function_call" with
      | none =>
          simp only [h2] at h
          cases hm : containsMarker cs with
          | false =>
              simp only [hm] at h
              simp only [Bool.or_false, Bool.false_eq_true, if_false] at h
              cases h
              exact Or.inl ⟨rfl, rfl, rfl, rfl⟩
          | true =>
              simp only [hm] at h
              simp only [Bool.or_true, if_true] at h
              cases h
              exact Or.inr ⟨d, "", rfl⟩
      | some w =>
          simp only [h2] at h
          cases w with
          | vdict fc =>
              simp only [Bool.true_or, if_true] at h
              cases h
              exact Or.inr ⟨_, _, rfl⟩
          | vstr s => exact absurd h (by simp)
          | vint n => exact absurd h (by simp)
          | vbool b => exact absurd h (by simp)
          | vnone => exact absurd h (by simp)
          | vlist xs => exact absurd h (by simp)
  | some v =>
      simp only [h1] at h
      cases htl : toolCallLog v with
      | error e =>
          simp only [htl] at h
          exact absurd h (by simp)
      | ok log =>
          simp only [htl] at h
          cases h2 : dictGet (dictDel d "tool_calls") "function_call" with
          | none =>
              simp only [h2] at h
              simp only [Bool.true_or, if_true] at h
              cases h
              exact Or.inr ⟨_, _, rfl⟩
          | some w =>
              simp only [h2] at h
              cases w with
              | vdict fc =>
                  simp only [Bool.true_or, if_true] at h
                  cases h
                  exact Or.inr ⟨_, _, rfl⟩
              | vstr s => exact absurd h (by simp)
              | vint n => exact absurd h (by simp)
              | vbool b => exact absurd h (by simp)
              | vnone => exact absurd h (by simp)
              | vlist xs => exact absurd h (by simp)

theorem assistantStep_keys (d : PyDict) (cs : String) (d' : PyDict)
    (h : assistantStep d cs = Except.ok d') :
    hasKeyD d' "tool_calls" = false ∧ hasKeyD d' "function_call" = false := by
  unfold assistantStep at h
  cases h1 : dictGet d "tool_calls" with
  | none =>
      have k1 : hasKeyD d "tool_calls" = false := (hasKeyD_eq_false_iff _ _).mpr h1
      simp only [h1] at h
      cases h2 : dictGet d "function_call" with
      | none =>
          have k2 : hasKeyD d "function_call" = false := (hasKeyD_eq_false_iff _ _).mpr h2
          simp only [h2] at h
          cases hm : containsMarker cs with
          | false =>
              simp only [hm, Bool.or_false, Bool.false_eq_true, if_false] at h
              cases h
              exact ⟨k1, k2⟩
          | true =>
              simp only [hm, Bool.or_true, if_true] at h
              cases h
              rw [hasKeyD_dictSet_ne _ _ _ _ (by decide),
                hasKeyD_dictSet_ne _ _ _ _ (by decide),
                hasKeyD_dictSet_ne _ _ _ _ (by decide),
                hasKeyD_dictSet_ne _ _ _ _ (by decide)]
              exact ⟨k1, k2⟩
      | some w =>
          simp only [h2] at h
          cases w with
          | vdict fc =>
              simp only [Bool.true_or, if_true] at h
              cases h
              constructor
              · rw [hasKeyD_dictSet_ne _ _ _ _ (by decide),
                  hasKeyD_dictSet_ne _ _ _ _ (by decide),
                  hasKeyD_dictDel_ne _ _ _ (by decide)]
                exact k1
              · rw [hasKeyD_dictSet_ne _ _ _ _ (by decide),
                  hasKeyD_dictSet_ne _ _ _ _ (by decide)]
                exact hasKeyD_dictDel_self _ _
          | vstr s => exact absurd h (by simp)
          | vint n => exact absurd h (by simp)
          | vbool b => exact absurd h (by simp)
          | vnone => exact absurd h (by simp)
          | vlist xs => exact absurd h (by simp)
  | some v =>
      simp only [h1] at h
      cases htl : toolCallLog v with
      | error e =>
          simp only [htl] at h
          exact absurd h (by simp)
      | ok log =>
          simp only [htl] at h
          cases h2 : dictGet (dictDel d "tool_calls") "function_call" with
          | none =>
              have k2 : hasKeyD (dictDel d "tool_calls") "function_call" = false :=
                (hasKeyD_eq_false_iff _ _).mpr h2
              simp only [h2, Bool.true_or, if_true] at h
              cases h
              rw [hasKeyD_dictSet_ne _ _ _ _ (by decide),
                hasKeyD_dictSet_ne _ _ _ _ (by decide),
                hasKeyD_dictSet_ne _ _ _ _ (by decide),
                hasKeyD_dictSet_ne _ _ _ _ (by decide)]
              exact ⟨hasKeyD_dictDel_self _ _, k2⟩
          | some w =>
              simp only [h2] at h
              cases w with
              | vdict fc =>
                  simp only [Bool.true_or, if_true] at h
                  cases h
                  constructor
                  · rw [hasKeyD_dictSet_ne _ _ _ _ (by decide),
                      hasKeyD_dictSet_ne _ _ _ _ (by decide),
                      hasKeyD_dictDel_ne _ _ _ (by decide)]
                    exact hasKeyD_dictDel_self _ _
                  · rw [hasKeyD_dictSet_ne _ _ _ _ (by decide),
                      hasKeyD_dictSet_ne _ _ _ _ (by decide)]
                    exact hasKeyD_dictDel_self _ _
              | vstr s => exact absurd h (by simp)
              | vint n => exact absurd h (by simp)
              | vbool b => exact absurd h (by simp)
              | vnone => exact absurd h (by simp)
              | vlist xs => exact absurd h (by simp)

theorem assistantStep_content (d : PyDict) (cs : String) (d' : PyDict) (s : String)
    (hc : dictGet d "content" = some (.vstr s))
    (h : assistantStep d cs = Except.ok d') :
    ∃ s', dictGet d' "content" = some (.vstr s') := by
  rcases assistantStep_spec d cs d' h with ⟨rfl, -, -, -⟩ | ⟨t, logSuffix, rfl⟩
  · exact ⟨s, hc⟩
  · exact ⟨_, dictGet_dictSet_self _ _ _⟩

theorem nonEmptyStrContent_of_fallback (d : PyDict) (s : String)
    (h : dictGet d "content" = some (.vstr s)) :
    nonEmptyStrContent (.vdict (fallbackStep d)) = true := by
  obtain ⟨s', hs', hne⟩ := fallback_content d s h
  have hred : nonEmptyStrContent (.vdict (fallbackStep d)) =
      (match dictGet (fallbackStep d) "content" with
       | some (.vstr u) => !u.data.isEmpty
       | _ => false) := rfl
  rw [hred, hs']
  cases s' with
  | mk l =>
      cases l with
      | nil => exact absurd rfl hne
      | cons c cs2 => rfl

theorem processMsg_content (m out : PyVal) (h : processMsg m = Except.ok out) :
    nonEmptyStrContent out = true := by
  cases m with
  | vdict d =>
      have hflat := dictGet_flatten_content d
      by_cases hA : (isRole (dictGet d "role") "assistant" ||
          isRole (dictGet d "role") "model") = true
      · rw [processMsg_assistant d hA] at h
        cases hst : assistantStep (flattenContent d) (strOfContent (flattenContent d)) with
        | error e => rw [hst] at h; exact absurd h (by simp)
        | ok d3 =>
            rw [hst] at h
            cases h
            obtain ⟨s', hs'⟩ := assistantStep_content _ _ _ _ hflat hst
            exact nonEmptyStrContent_of_fallback d3 s' hs'
      · by_cases hT : (isRole (dictGet d "role") "tool" ||
            isRole (dictGet d "role") "function") = true
        · rw [processMsg_tool d hT] at h
          cases h
          exact nonEmptyStrContent_of_fallback _ _ (toolStep_content _ _)
        · by_cases hD : isRole (dictGet d "role") "developer" = true
          · rw [processMsg_developer d hD] at h
            cases h
            refine nonEmptyStrContent_of_fallback _ (strOfContent (flattenContent d)) ?_
            rw [dictGet_dictSet_ne _ _ _ _ (by decide)]
            exact hflat
          · have hA' := Bool.or_eq_false_iff.mp (Bool.eq_false_iff.mpr hA)
            have hT' := Bool.or_eq_false_iff.mp (Bool.eq_false_iff.mpr hT)
            have hD' := Bool.eq_false_iff.mpr hD
            rw [processMsg_other d hA'.1 hA'.2 hD' hT'.1 hT'.2] at h
            cases h
            exact nonEmptyStrContent_of_fallback _ _ hflat
  | vstr s => exact absurd h (by simp [processMsg])
  | vint n => exact absurd h (by simp [processMsg])
  | vbool b => exact absurd h (by simp [processMsg])
  | vnone => exact absurd h (by simp [processMsg])
  | vlist xs => exact absurd h (by simp [processMsg])

theorem toolStep_no_tci (d : PyDict) (cs : String) :
    hasKeyD (toolStep d cs) "tool_call_id" = false := by
  unfold toolStep
  rw [hasKeyD_dictDel_ne _ _ _ (by decide), hasKeyD_dictDel_self]

theorem toolStep_no_name (d : PyDict) (cs : String) :
    hasKeyD (toolStep d cs) "name" = false := by
  unfold toolStep
  rw [hasKeyD_dictDel_self]

theorem processMsg_strips (d : PyDict) (out : PyVal)
    (h : processMsg (.vdict d) = Except.ok out) :
    ((isRole (dictGet d "role") "assistant" ||
        isRole (dictGet d "role") "model") = true →
      (msgHasKey (some out) "tool_calls" ||
        msgHasKey (some out) "function_call") = false) ∧
    ((isRole (dictGet d "role") "tool" ||
        isRole (dictGet d "role") "function") = true →
      (msgHasKey (some out) "tool_call_id" ||
        msgHasKey (some out) "name") = false) := by
  constructor
  · intro hA
    rw [processMsg_assistant d hA] at h
    cases hst : assistantStep (flattenContent d) (strOfContent (flattenContent d)) with
    | error e => rw [hst] at h; exact absurd h (by simp)
    | ok d3 =>
        rw [hst] at h
        cases h
        obtain ⟨k1, k2⟩ := assistantStep_keys _ _ _ hst
        show (hasKeyD (fallbackStep d3) "tool_calls" ||
          hasKeyD (fallbackStep d3) "function_call") = false
        rw [hasKeyD_fallback_ne _ _ (by decide), hasKeyD_fallback_ne _ _ (by decide),
          k1, k2]
        rfl
  · intro hT
    rw [processMsg_tool d hT] at h
    cases h
    show (hasKeyD (fallbackStep (toolStep (flattenContent d)
        (strOfContent (flattenContent d)))) "tool_call_id" ||
      hasKeyD (fallbackStep (toolStep (flattenContent d)
        (strOfContent (flattenContent d)))) "name") = false
    rw [hasKeyD_fallback_ne _ _ (by decide), hasKeyD_fallback_ne _ _ (by decide),
      toolStep_no_tci, toolStep_no_name]
    rfl


theorem sanitize_none (body : PyDict) (hm : dictGet body "messages" = none) :
    role_flip_sanitize body = Except.ok body := by
  unfold role_flip_sanitize
  rw [hm]

theorem sanitize_vlist (body : PyDict) (msgs : List PyVal)
    (hm : dictGet body "messages" = some (.vlist msgs)) :
    role_flip_sanitize body =
      (match processAll msgs with
       | Except.ok cleaned =>
           Except.ok (dictSet body "messages"
             (.vlist (systemInstruction :: cleaned)))
       | Except.error e => Except.error e) := by
  unfold role_flip_sanitize
  rw [hm]

theorem sanitize_empty_str (body : PyDict)
    (hm : dictGet body "messages" = some (.vstr "")) :
    role_flip_sanitize body =
      Except.ok (dictSet body "messages" (.vlist [systemInstruction])) := by
  unfold role_flip_sanitize
  rw [hm]
  rfl

theorem sanitize_empty_dict (body : PyDict)
    (hm : dictGet body "messages" = some (.vdict [])) :
    role_flip_sanitize body =
      Except.ok (dictSet body "messages" (.vlist [systemInstruction])) := by
  unfold role_flip_sanitize
  rw [hm]

theorem sanitize_bad_str (body : PyDict) (c : Char) (cs : List Char)
    (hm : dictGet body "messages" = some (.vstr (String.mk (c :: cs)))) :
    role_flip_sanitize body = Except.error "AttributeError" := by
  unfold role_flip_sanitize
  rw [hm]
  rfl

theorem sanitize_bad_dict (body : PyDict) (p : String × PyVal) (rest : PyDict)
    (hm : dictGet body "messages" = some (.vdict (p :: rest))) :
    role_flip_sanitize body = Except.error "AttributeError" := by
  unfold role_flip_sanitize
  rw [hm]

theorem sanitize_not_iterable (body : PyDict) (v : PyVal)
    (hv : v = .vint 0 ∨ (∃ n, v = .vint n) ∨ (∃ b, v = .vbool b) ∨ v = .vnone)
    (hm : dictGet body "messages" = some v) :
    role_flip_sanitize body = Except.error "TypeError" := by
  unfold role_flip_sanitize
  rw [hm]
  rcases hv with rfl | ⟨n, rfl⟩ | ⟨b, rfl⟩ | rfl <;> rfl

theorem processAll_mem (msgs cleaned : List PyVal)
    (h : processAll msgs = Except.ok cleaned) :
    ∀ x ∈ cleaned, ∃ m, processMsg m = Except.ok x := by
  induction msgs generalizing cleaned with
  | nil =>
      unfold processAll at h
      cases h
      intro x hx
      exact absurd hx (List.not_mem_nil x)
  | cons m rest ih =>
      unfold processAll at h
      cases hp : processMsg m with
      | error e => rw [hp] at h; exact absurd h (by simp)
      | ok m' =>
          rw [hp] at h
          cases hq : processAll rest with
          | error e => rw [hq] at h; exact absurd h (by simp)
          | ok rest' =>
              rw [hq] at h
              cases h
              intro x hx
              rcases List.mem_cons.mp hx with rfl | hx'
              · exact ⟨m, hp⟩
              · exact ih rest' hq x hx'

/-- C1 (amended): every message of a successful sanitizer output has
non-empty string content; `tool_calls`/`function_call` are removed from
messages whose original role is `assistant`/`model`, and
`tool_call_id`/`name` from messages whose original role is
`tool`/`function`.  (Messages of other roles may retain these fields,
which is why the claim as stated fails.) -/
theorem C1_sanitize_invariant :
    (∀ body out l, role_flip_sanitize body = Except.ok out →
      messagesOf out = some l → ∀ m ∈ l, nonEmptyStrContent m = true) ∧
    (∀ d out, processMsg (.vdict d) = Except.ok out →
      ((isRole (dictGet d "role") "assistant" ||
          isRole (dictGet d "role") "model") = true →
        (msgHasKey (some out) "tool_calls" ||
          msgHasKey (some out) "function_call") = false) ∧
      ((isRole (dictGet d "role") "tool" ||
          isRole (dictGet d "role") "function") = true →
        (msgHasKey (some out) "tool_call_id" ||
          msgHasKey (some out) "name") = false)) := by
  constructor
  · intro body out l h hml
    cases hm : dictGet body "messages" with
    | none =>
        rw [sanitize_none body hm] at h
        cases h
        unfold messagesOf at hml
        rw [hm] at hml
        exact absurd hml (by simp)
    | some v =>
        cases v with
        | vlist msgs =>
            rw [sanitize_vlist body msgs hm] at h
            cases hq : processAll msgs with
            | error e => rw [hq] at h; exact absurd h (by simp)
            | ok cleaned =>
                rw [hq] at h
                cases h
                unfold messagesOf at hml
                rw [dictGet_dictSet_self] at hml
                cases hml
                intro m hmem
                rcases List.mem_cons.mp hmem with rfl | hmem'
                · rfl
                · obtain ⟨m0, hp⟩ := processAll_mem msgs cleaned hq m hmem'
                  exact processMsg_content m0 m hp
        | vstr s =>
            cases s with
            | mk chars =>
                cases chars with
                | nil =>
                    rw [sanitize_empty_str body hm] at h
                    cases h
                    unfold messagesOf at hml
                    rw [dictGet_dictSet_self] at hml
                    cases hml
                    intro m hmem
                    rcases List.mem_cons.mp hmem with rfl | hmem'
                    · rfl
                    · exact absurd hmem' (List.not_mem_nil m)
                | cons c cs2 =>
                    rw [sanitize_bad_str body c cs2 hm] at h
                    exact absurd h (by simp)
        | vdict d0 =>
            cases d0 with
            | nil =>
                rw [sanitize_empty_dict body hm] at h
                cases h
                unfold messagesOf at hml
                rw [dictGet_dictSet_self] at hml
                cases hml
                intro m hmem
                rcases List.mem_cons.mp hmem with rfl | hmem'
                · rfl
                · exact absurd hmem' (List.not_mem_nil m)
            | cons p rest =>
                rw [sanitize_bad_dict body p rest hm] at h
                exact absurd h (by simp)
        | vint n =>
            rw [sanitize_not_iterable body _ (Or.inr (Or.inl ⟨n, rfl⟩)) hm] at h
            exact absurd h (by simp)
        | vbool b =>
            rw [sanitize_not_iterable body _ (Or.inr (Or.inr (Or.inl ⟨b, rfl⟩))) hm] at h
            exact absurd h (by simp)
        | vnone =>
            rw [sanitize_not_iterable body _ (Or.inr (Or.inr (Or.inr rfl))) hm] at h
            exact absurd h (by simp)
  · intro d out h
    exact processMsg_strips d out h

/-- C1 counterexample: a `user`-role message carrying `tool_calls`
passes through the sanitizer with that field intact, so the claim's
"regardless of the message's original role" fails. -/
theorem C1_counterexample :
    sanitizeOutputClean [("messages", .vlist [.vdict [("role", .vstr "user"),
      ("content", .vstr "hi"), ("tool_calls", .vlist [])]])] = false := rfl

/-- Witness for C1 on a concrete one-message body. -/
theorem C1_sanitize_invariant_witness :
    nonEmptyStrContent (.vdict [("role", .vstr "user"), ("content", .vstr "hi")]) = true :=
  C1_sanitize_invariant.1
    [("messages", .vlist [.vdict [("role", .vstr "user"), ("content", .vstr "hi")]])]
    [("messages", .vlist [systemInstruction,
      .vdict [("role", .vstr "user"), ("content", .vstr "hi")]])]
    [systemInstruction, .vdict [("role", .vstr "user"), ("content", .vstr "hi")]]
    (by rfl) (by rfl)
    (.vdict [("role", .vstr "user"), ("content", .vstr "hi")])
    (List.mem_cons_of_mem _ (List.mem_cons_self _ _))

theorem flattenContent_of_str (d : PyDict) (s : String)
    (h : dictGet d "content" = some (.vstr s)) : flattenContent d = d := by
  unfold flattenContent
  rw [h]

theorem strOfContent_of_str (d : PyDict) (s : String)
    (h : dictGet d "content" = some (.vstr s)) : strOfContent d = s := by
  unfold strOfContent
  rw [h]

theorem fallbackStep_spec (d : PyDict) (s : String)
    (h : dictGet d "content" = some (.vstr s)) :
    (s ≠ "" ∧ fallbackStep d = d) ∨
    (s = "" ∧ fallbackStep d = dictSet d "content" (.vstr ".")) := by
  by_cases hs : s = ""
  · refine Or.inr ⟨hs, ?_⟩
    unfold fallbackStep
    rw [h]
    show (if pyTruthy (.vstr s) = true then d else dictSet d "content" (.vstr ".")) =
      dictSet d "content" (.vstr ".")
    rw [if_neg]
    intro hc
    exact absurd ((pyTruthy_vstr_iff s).mp hc) (by simp [hs])
  · exact Or.inl ⟨hs, fallbackStep_noop d s h hs⟩

theorem str_append_ne_empty (a b : String) (ha : a ≠ "") : a ++ b ≠ "" := by
  intro h
  apply ha
  have hd := congrArg String.data h
  rw [String.data_append] at hd
  rcases List.append_eq_nil.mp hd with ⟨h1, -⟩
  cases a with
  | mk l => cases h1; rfl

/-- A message fixed by `processMsg`: string non-empty content, a role
that is none of the rewritten ones, and -- when the role is
`assistant`/`model` -- no tool-call fields and no marker substring in
the content. -/
def StableMsg (d : PyDict) : Prop :=
  (∃ s, dictGet d "content" = some (.vstr s) ∧ s ≠ "" ∧
    ((isRole (dictGet d "role") "assistant" ||
        isRole (dictGet d "role") "model") = true →
      dictGet d "tool_calls" = none ∧ dictGet d "function_call" = none ∧
        containsMarker s = false)) ∧
  isRole (dictGet d "role") "developer" = false ∧
  isRole (dictGet d "role") "tool" = false ∧
  isRole (dictGet d "role") "function" = false

theorem stable_fix (d : PyDict) (h : StableMsg d) :
    processMsg (.vdict d) = Except.ok (.vdict d) := by
  obtain ⟨⟨s, hc, hne, hAimp⟩, hnd, hnt, hnf⟩ := h
  have hflat := flattenContent_of_str d s hc
  have hstr : strOfContent d = s := strOfContent_of_str d s hc
  have hfb : fallbackStep d = d := fallbackStep_noop d s hc hne
  by_cases hA : (isRole (dictGet d "role") "assistant" ||
      isRole (dictGet d "role") "model") = true
  · obtain ⟨htc, hfc, hmk⟩ := hAimp hA
    have hstep : assistantStep (flattenContent d) (strOfContent (flattenContent d)) =
        Except.ok d := by
      rw [hflat, hstr]
      unfold assistantStep
      simp only [htc, hfc, hmk, Bool.or_false, Bool.false_eq_true, if_false]
    rw [processMsg_assistant d hA, hstep]
    show Except.ok (PyVal.vdict (fallbackStep d)) =
      (Except.ok (PyVal.vdict d) : Except String PyVal)
    rw [hfb]
  · have hA' := Bool.or_eq_false_iff.mp (Bool.eq_false_iff.mpr hA)
    rw [processMsg_other d hA'.1 hA'.2 hnd hnt hnf, hflat, hfb]


theorem isRole_user_false (name : String) (hne : name ≠ "user") :
    isRole (some (.vstr "user")) name = false := by
  simp [isRole]
  exact fun hc => absurd hc.symm hne

theorem isRole_system_false (name : String) (hne : name ≠ "system") :
    isRole (some (.vstr "system")) name = false := by
  simp [isRole]
  exact fun hc => absurd hc.symm hne

theorem stable_out (m out : PyVal) (h : processMsg m = Except.ok out) :
    ∃ d', out = .vdict d' ∧ StableMsg d' := by
  cases m with
  | vdict d =>
      have hflat := dictGet_flatten_content d
      by_cases hA : (isRole (dictGet d "role") "assistant" ||
          isRole (dictGet d "role") "model") = true
      · -- assistant/model branch
        have hnd : isRole (dictGet d "role") "developer" = false := by
          rcases Bool.or_eq_true_iff.mp hA with hr | hr
          · exact isRole_unique _ _ _ hr (by decide)
          · exact isRole_unique _ _ _ hr (by decide)
        have hnt : isRole (dictGet d "role") "tool" = false := by
          rcases Bool.or_eq_true_iff.mp hA with hr | hr
          · exact isRole_unique _ _ _ hr (by decide)
          · exact isRole_unique _ _ _ hr (by decide)
        have hnf : isRole (dictGet d "role") "function" = false := by
          rcases Bool.or_eq_true_iff.mp hA with hr | hr
          · exact isRole_unique _ _ _ hr (by decide)
          · exact isRole_unique _ _ _ hr (by decide)
        rw [processMsg_assistant d hA] at h
        cases hst : assistantStep (flattenContent d) (strOfContent (flattenContent d)) with
        | error e => rw [hst] at h; exact absurd h (by simp)
        | ok d3 =>
            rw [hst] at h
            cases h
            refine ⟨fallbackStep d3, rfl, ?_⟩
            rcases assistantStep_spec _ _ _ hst with
              ⟨rfl, htc, hfc, hmk⟩ | ⟨t, logSuffix, rfl⟩
            · -- no flip: d3 = flattenContent d
              have hrole : dictGet (flattenContent d) "role" = dictGet d "role" :=
                dictGet_flatten_ne d _ (by decide)
              rcases fallbackStep_spec (flattenContent d) _ hflat with
                ⟨hne, hfb⟩ | ⟨hempty, hfb⟩
              · rw [hfb]
                refine ⟨⟨strOfContent (flattenContent d), hflat, hne, fun _ => ⟨htc, hfc, hmk⟩⟩,
                  ?_, ?_, ?_⟩ <;> rw [hrole] <;> assumption
              · rw [hfb]
                refine ⟨⟨".", dictGet_dictSet_self _ _ _, by decide, fun _ => ?_⟩, ?_, ?_, ?_⟩
                · refine ⟨?_, ?_, by decide⟩
                  · rw [dictGet_dictSet_ne _ _ _ _ (by decide)]
                    exact htc
                  · rw [dictGet_dictSet_ne _ _ _ _ (by decide)]
                    exact hfc
                all_goals
                  rw [dictGet_dictSet_ne _ _ _ _ (by decide), hrole]
                all_goals assumption
            · -- flip: d3 is the wrapped user message
              have hcw := dictGet_dictSet_self (dictSet t "role" (.vstr "user")) "content"
                (.vstr ("[Internal Context: Assistant\x27s previous action]\n" ++
                  strOfContent (flattenContent d) ++ "\n" ++ logSuffix))
              have hwne : ("[Internal Context: Assistant\x27s previous action]\n" ++
                  strOfContent (flattenContent d) ++ "\n" ++ logSuffix) ≠ "" :=
                str_append_ne_empty _ _ (str_append_ne_empty _ _
                  (str_append_ne_empty _ _ (by decide)))
              have hrole : dictGet (dictSet (dictSet t "role" (.vstr "user")) "content"
                  (.vstr ("[Internal Context: Assistant\x27s previous action]\n" ++
                    strOfContent (flattenContent d) ++ "\n" ++ logSuffix))) "role" =
                  some (.vstr "user") := by
                rw [dictGet_dictSet_ne _ _ _ _ (by decide), dictGet_dictSet_self]
              rw [fallbackStep_noop _ _ hcw hwne]
              refine ⟨⟨_, hcw, hwne, fun habs => ?_⟩, ?_, ?_, ?_⟩
              · rw [hrole] at habs
                rw [isRole_user_false "assistant" (by decide),
                  isRole_user_false "model" (by decide)] at habs
                exact absurd habs (by simp)
              all_goals rw [hrole]
              · exact isRole_user_false "developer" (by decide)
              · exact isRole_user_false "tool" (by decide)
              · exact isRole_user_false "function" (by decide)
      · by_cases hT : (isRole (dictGet d "role") "tool" ||
            isRole (dictGet d "role") "function") = true
        · -- tool/function branch
          rw [processMsg_tool d hT] at h
          cases h
          refine ⟨fallbackStep _, rfl, ?_⟩
          have hcw := toolStep_content (flattenContent d) (strOfContent (flattenContent d))
          have hwne := wrapReadOnly_ne_empty
            (truncateLog (strOfContent (flattenContent d)))
          have hrole := toolStep_role (flattenContent d) (strOfContent (flattenContent d))
          rw [fallbackStep_noop _ _ hcw hwne]
          refine ⟨⟨_, hcw, hwne, fun habs => ?_⟩, ?_, ?_, ?_⟩
          · rw [hrole] at habs
            rw [isRole_user_false "assistant" (by decide),
              isRole_user_false "model" (by decide)] at habs
            exact absurd habs (by simp)
          all_goals rw [hrole]
          · exact isRole_user_false "developer" (by decide)
          · exact isRole_user_false "tool" (by decide)
          · exact isRole_user_false "function" (by decide)
        · by_cases hD : isRole (dictGet d "role") "developer" = true
          · -- developer branch
            rw [processMsg_developer d hD] at h
            cases h
            refine ⟨fallbackStep _, rfl, ?_⟩
            have hcE : dictGet (dictSet (flattenContent d) "role" (.vstr "system"))
                "content" = some (.vstr (strOfContent (flattenContent d))) := by
              rw [dictGet_dictSet_ne _ _ _ _ (by decide)]
              exact hflat
            have hroleE : dictGet (dictSet (flattenContent d) "role" (.vstr "system"))
                "role" = some (.vstr "system") := dictGet_dictSet_self _ _ _
            rcases fallbackStep_spec _ _ hcE with ⟨hne, hfb⟩ | ⟨hempty, hfb⟩
            · rw [hfb]
              refine ⟨⟨_, hcE, hne, fun habs => ?_⟩, ?_, ?_, ?_⟩
              · rw [hroleE] at habs
                rw [isRole_system_false "assistant" (by decide),
                  isRole_system_false "model" (by decide)] at habs
                exact absurd habs (by simp)
              all_goals rw [hroleE]
              · exact isRole_system_false "developer" (by decide)
              · exact isRole_system_false "tool" (by decide)
              · exact isRole_system_false "function" (by decide)
            · rw [hfb]
              have hrole2 : dictGet (dictSet (dictSet (flattenContent d) "role"
                  (.vstr "system")) "content" (.vstr ".")) "role" =
                  some (.vstr "system") := by
                rw [dictGet_dictSet_ne _ _ _ _ (by decide)]
                exact hroleE
              refine ⟨⟨".", dictGet_dictSet_self _ _ _, by decide, fun habs => ?_⟩,
                ?_, ?_, ?_⟩
              · rw [hrole2] at habs
                rw [isRole_system_false "assistant" (by decide),
                  isRole_system_false "model" (by decide)] at habs
                exact absurd habs (by simp)
              all_goals rw [hrole2]
              · exact isRole_system_false "developer" (by decide)
              · exact isRole_system_false "tool" (by decide)
              · exact isRole_system_false "function" (by decide)
          · -- all other roles
            have hA' := Bool.or_eq_false_iff.mp (Bool.eq_false_iff.mpr hA)
            have hT' := Bool.or_eq_false_iff.mp (Bool.eq_false_iff.mpr hT)
            have hD' := Bool.eq_false_iff.mpr hD
            rw [processMsg_other d hA'.1 hA'.2 hD' hT'.1 hT'.2] at h
            cases h
            refine ⟨fallbackStep _, rfl, ?_⟩
            have hrole : dictGet (flattenContent d) "role" = dictGet d "role" :=
              dictGet_flatten_ne d _ (by decide)
            rcases fallbackStep_spec _ _ hflat with ⟨hne, hfb⟩ | ⟨hempty, hfb⟩
            · rw [hfb]
              refine ⟨⟨_, hflat, hne, fun habs => ?_⟩, ?_, ?_, ?_⟩
              · rw [hrole, hA'.1, hA'.2] at habs
                exact absurd habs (by simp)
              all_goals rw [hrole]
              · exact hD'
              · exact hT'.1
              · exact hT'.2
            · rw [hfb]
              have hrole2 : dictGet (dictSet (flattenContent d) "content" (.vstr "."))
                  "role" = dictGet d "role" := by
                rw [dictGet_dictSet_ne _ _ _ _ (by decide)]
                exact hrole
              refine ⟨⟨".", dictGet_dictSet_self _ _ _, by decide, fun habs => ?_⟩,
                ?_, ?_, ?_⟩
              · rw [hrole2, hA'.1, hA'.2] at habs
                exact absurd habs (by simp)
              all_goals rw [hrole2]
              · exact hD'
              · exact hT'.1
              · exact hT'.2
  | vstr s => exact absurd h (by simp [processMsg])
  | vint n => exact absurd h (by simp [processMsg])
  | vbool b => exact absurd h (by simp [processMsg])
  | vnone => exact absurd h (by simp [processMsg])
  | vlist xs => exact absurd h (by simp [processMsg])

theorem processMsg_fix (m out : PyVal) (h : processMsg m = Except.ok out) :
    processMsg out = Except.ok out := by
  obtain ⟨d', rfl, hstable⟩ := stable_out m out h
  exact stable_fix d' hstable

theorem processMsg_systemInstruction :
    processMsg systemInstruction = Except.ok systemInstruction := rfl

theorem processAll_fix (l : List PyVal) (h : ∀ m ∈ l, processMsg m = Except.ok m) :
    processAll l = Except.ok l := by
  induction l with
  | nil => rfl
  | cons m rest ih =>
      unfold processAll
      rw [h m (List.mem_cons_self _ _), ih (fun x hx => h x (List.mem_cons_of_mem _ hx))]

/-- C3: applying `role_flip_sanitize` to its own output yields the same
message list with one more injected system directive at the front:
every already-processed message (flipped or wrapped ones included) is a
fixed point of the per-message transformation and is not flipped or
wrapped again. -/
theorem C3_idempotent (body out : PyDict)
    (h : role_flip_sanitize body = Except.ok out)
    (hm : hasKeyD body "messages" = true) :
    role_flip_sanitize out =
      Except.ok (dictSet out "messages"
        (.vlist (systemInstruction :: (messagesOf out).getD []))) ∧
    ∀ m ∈ (messagesOf out).getD [], processMsg m = Except.ok m := by
  have hget : dictGet body "messages" ≠ none := by
    intro hc
    rw [(hasKeyD_eq_false_iff body "messages").mpr hc] at hm
    exact absurd hm (by simp)
  cases hmv : dictGet body "messages" with
  | none => exact absurd hmv hget
  | some v =>
      cases v with
      | vlist msgs =>
          rw [sanitize_vlist body msgs hmv] at h
          cases hq : processAll msgs with
          | error e => rw [hq] at h; exact absurd h (by simp)
          | ok cleaned =>
              rw [hq] at h
              cases h
              have hmo : messagesOf (dictSet body "messages"
                  (.vlist (systemInstruction :: cleaned))) =
                  some (systemInstruction :: cleaned) := by
                unfold messagesOf
                rw [dictGet_dictSet_self]
              have hfix : ∀ m ∈ systemInstruction :: cleaned,
                  processMsg m = Except.ok m := by
                intro m hmem
                rcases List.mem_cons.mp hmem with rfl | hmem'
                · exact processMsg_systemInstruction
                · obtain ⟨m0, hp⟩ := processAll_mem msgs cleaned hq m hmem'
                  exact processMsg_fix m0 m hp
              constructor
              · rw [hmo]
                have hget2 : dictGet (dictSet body "messages"
                    (.vlist (systemInstruction :: cleaned))) "messages" =
                    some (.vlist (systemInstruction :: cleaned)) :=
                  dictGet_dictSet_self _ _ _
                rw [sanitize_vlist _ _ hget2, processAll_fix _ hfix]
                rfl
              · rw [hmo]
                exact hfix
      | vstr s =>
          cases s with
          | mk chars =>
              cases chars with
              | nil =>
                  rw [sanitize_empty_str body hmv] at h
                  cases h
                  have hmo : messagesOf (dictSet body "messages"
                      (.vlist [systemInstruction])) = some [systemInstruction] := by
                    unfold messagesOf
                    rw [dictGet_dictSet_self]
                  have hfix : ∀ m ∈ [systemInstruction],
                      processMsg m = Except.ok m := by
                    intro m hmem
                    rcases List.mem_cons.mp hmem with rfl | hmem'
                    · exact processMsg_systemInstruction
                    · exact absurd hmem' (List.not_mem_nil m)
                  constructor
                  · rw [hmo]
                    have hget2 : dictGet (dictSet body "messages"
                        (.vlist [systemInstruction])) "messages" =
                        some (.vlist [systemInstruction]) :=
                      dictGet_dictSet_self _ _ _
                    rw [sanitize_vlist _ _ hget2, processAll_fix _ hfix]
                    rfl
                  · rw [hmo]
                    exact hfix
              | cons c cs2 =>
                  rw [sanitize_bad_str body c cs2 hmv] at h
                  exact absurd h (by simp)
      | vdict d0 =>
          cases d0 with
          | nil =>
              rw [sanitize_empty_dict body hmv] at h
              cases h
              have hmo : messagesOf (dictSet body "messages"
                  (.vlist [systemInstruction])) = some [systemInstruction] := by
                unfold messagesOf
                rw [dictGet_dictSet_self]
              have hfix : ∀ m ∈ [systemInstruction],
                  processMsg m = Except.ok m := by
                intro m hmem
                rcases List.mem_cons.mp hmem with rfl | hmem'
                · exact processMsg_systemInstruction
                · exact absurd hmem' (List.not_mem_nil m)
              constructor
              · rw [hmo]
                have hget2 : dictGet (dictSet body "messages"
                    (.vlist [systemInstruction])) "messages" =
                    some (.vlist [systemInstruction]) :=
                  dictGet_dictSet_self _ _ _
                rw [sanitize_vlist _ _ hget2, processAll_fix _ hfix]
                rfl
              · rw [hmo]
                exact hfix
          | cons p rest =>
              rw [sanitize_bad_dict body p rest hmv] at h
              exact absurd h (by simp)
      | vint n =>
          rw [sanitize_not_iterable body _ (Or.inr (Or.inl ⟨n, rfl⟩)) hmv] at h
          exact absurd h (by simp)
      | vbool b =>
          rw [sanitize_not_iterable body _ (Or.inr (Or.inr (Or.inl ⟨b, rfl⟩))) hmv] at h
          exact absurd h (by simp)
      | vnone =>
          rw [sanitize_not_iterable body _ (Or.inr (Or.inr (Or.inr rfl))) hmv] at h
          exact absurd h (by simp)

/-- A one-assistant-message body and its sanitized output. -/
def c3Body : PyDict :=
  [("messages", .vlist [.vdict [("role", .vstr "assistant"),
    ("content", .vstr "hello")]])]

/-- The sanitizer's output on `c3Body`. -/
def c3Out : PyDict :=
  [("messages", .vlist [systemInstruction,
    .vdict [("role", .vstr "assistant"), ("content", .vstr "hello")]])]

/-- Witness for C3 on a concrete already-sanitized body. -/
theorem C3_idempotent_witness :
    role_flip_sanitize c3Out =
      Except.ok (dictSet c3Out "messages"
        (.vlist (systemInstruction :: (messagesOf c3Out).getD []))) :=
  (C3_idempotent c3Body c3Out (by rfl) (by rfl)).1
